import Mathlib

/-!
# dateutils: a verification development

Shallow embedding of `internal/dateutils/dateutils.go` together with the parts of
the Go standard library (`time`, `strconv`, `strings`, `regexp`) and of
`github.com/rickb777/date` that the package calls.

The `time` package is embedded after `time/time.go` and `time/format.go` of the Go
distribution (fractional seconds with a period or a comma, range checks on zone offsets);
`time.Parse` is embedded for the layout elements that occur in the layouts of this package,
see `timeFormats_covered`. The period library is a parameter of the functions that call it.

Conventions of the embedding:

* a Go `string` is a list of characters (`GoString`); every character the code
  inspects is ASCII, so byte and character indices coincide on the strings the
  theorems speak about;
* a `time.Time` is its Unix second count, its nanosecond within the second and
  the attached location; second counts are mathematical integers, and `int64`
  arithmetic done by the package itself is wrapped explicitly (`wrap64`);
* the rounded value of the floating-point product in `parseTimestamp` is a parameter
  (`fscale`) wherever the product is not exact;
* a function returning `(*time.Time, error)` returns `Outcome (Option Time × Option GoError)`:
  `Outcome.ret` is a normal return (`none` is `nil`), `Outcome.panic` a run-time panic.
-/

namespace Dateutils

/-! ## Basic types -/

/-- A Go string, as the list of its characters. -/
abbrev GoString := List Char

/-- A `time.Location`, restricted to fixed-offset zones: a name and the offset east of UTC in seconds. -/
structure Location where
  name : String
  offset : Int
deriving DecidableEq, Repr

/-- The location `time.UTC`. -/
def UTC : Location := ⟨"UTC", 0⟩

/-- A `time.Time`: seconds since the Unix epoch, nanosecond within the second, location.
The seconds are a mathematical integer; the library holds them in `int64`, shifted by
`unixToInternal`, and the operations below agree with it while no machine integer wraps.
Where a wrap matters to this package (`StartIsBeforeEnd`, `Sub`) it is written out. -/
structure Time where
  sec : Int
  nsec : Int
  loc : Location
deriving DecidableEq, Repr

/-- Errors produced by `strconv.ParseInt`. -/
inductive NumErr
  | invalidSyntax
  | outOfRange
deriving DecidableEq, Repr

/-- Failures of `time.Parse`. -/
inductive ParseError
  | bad
  | extraText
  | outOfRange (what : String)
  | dayOutOfRange
  | unsupported
deriving DecidableEq, Repr

/-- Go `error` values that the package returns. -/
inductive GoError
  | errorsNew (msg : String)
  | numError (num : GoString) (e : NumErr)
  | timeParse (e : ParseError)
  | errorf (msg : String) (arg : GoString)
  | wrapped (msg : String) (e : ParseError)
deriving DecidableEq, Repr

/-- Result of a Go call: a normal return or a run-time panic. -/
inductive Outcome (α : Type) where
  | ret (a : α)
  | panic
deriving DecidableEq, Repr

deriving instance DecidableEq for Except

/-- Two's-complement wrap of an integer to `int64`. -/
def wrap64 (x : Int) : Int := (x + 2^63) % 2^64 - 2^63

/-! ## `time`: calendar arithmetic -/

def secondsPerMinute : Int := 60
def secondsPerHour : Int := 3600
def secondsPerDay : Int := 86400
def secondsPerWeek : Int := 604800
def daysPer400Years : Int := 365 * 400 + 97
def daysPer100Years : Int := 365 * 100 + 24
def daysPer4Years : Int := 365 * 4 + 1

/-- The zero year of Go's internal absolute time scale. -/
def absoluteZeroYear : Int := -292277022399

def absoluteToInternal : Int := (absoluteZeroYear - 1) * 31556952
def internalToAbsolute : Int := -absoluteToInternal
def unixToInternal : Int := (1969 * 365 + 1969 / 4 - 1969 / 100 + 1969 / 400) * 86400
def internalToUnix : Int := -unixToInternal

/-- Table `daysBefore`: `daysBefore[m]` counts the days of a non-leap year before month `m+1`. -/
def daysBefore : List Int := [0, 31, 59, 90, 120, 151, 181, 212, 243, 273, 304, 334, 365]

/-- Indexing of `daysBefore` by an integer month index. -/
def daysBeforeAt (i : Int) : Int := daysBefore.getD i.toNat 0

/-- The function `isLeap`; the remainders are only compared with zero. -/
def isLeap (year : Int) : Bool := year % 4 == 0 && (year % 100 != 0 || year % 400 == 0)

/-- `daysIn(m, year)`. -/
def daysIn (m year : Int) : Int :=
  if m == 2 && isLeap year then 29 else daysBeforeAt m - daysBeforeAt (m - 1)

/-- A `time.Time{}`: January 1, year 1, 00:00:00 UTC. -/
def zeroTime : Time := ⟨-62135596800, 0, UTC⟩

def Time.IsZero (t : Time) : Bool := t.sec == -62135596800 && t.nsec == 0

def Time.In (t : Time) (loc : Location) : Time := { t with loc := loc }

def Time.Unix (t : Time) : Int := t.sec

def Time.Nanosecond (t : Time) : Int := t.nsec

/-- Method `After`. The library compares the internal seconds `sec + unixToInternal`, held in
`int64`; the second counts compared here order the same way while those do not wrap, that is
for `-2^63 ≤ sec + unixToInternal < 2^63`. The same holds for `Before` and `Equal`. -/
def Time.After (t u : Time) : Bool := t.sec > u.sec || (t.sec == u.sec && t.nsec > u.nsec)

def Time.Before (t u : Time) : Bool := t.sec < u.sec || (t.sec == u.sec && t.nsec < u.nsec)

def Time.Equal (t u : Time) : Bool := t.sec == u.sec && t.nsec == u.nsec

/-- Method `abs`: seconds since the absolute zero year, in the time's own location. The
library holds this count in `uint64`; the integer given here is that count while it does not
wrap, that is while it lies in `0 .. 2^64 - 1`. -/
def Time.abs (t : Time) : Int := t.sec + t.loc.offset + (unixToInternal + internalToAbsolute)

/-- Result of `absDate`. -/
structure CivilDate where
  year : Int
  month : Int
  day : Int
  yday : Int
deriving DecidableEq, Repr

/-- The year and zero-based day of the year of an absolute day count (first half of `absDate`). -/
def absYear (days : Int) : Int × Int :=
  let d := days
  let n := d / daysPer400Years
  let y := 400 * n
  let d := d - daysPer400Years * n
  let n := d / daysPer100Years
  let n := n - n / 4
  let y := y + 100 * n
  let d := d - daysPer100Years * n
  let n := d / daysPer4Years
  let y := y + 4 * n
  let d := d - daysPer4Years * n
  let n := d / 365
  let n := n - n / 4
  let y := y + n
  let d := d - 365 * n
  (y + absoluteZeroYear, d)

/-- Month and day of the month from the zero-based day of the year (second half of `absDate`). -/
def monthDay (leap : Bool) (yday : Int) : Int × Int :=
  if leap && yday == 31 + 29 - 1 then (2, 29)
  else
    let day := if leap && yday > 31 + 29 - 1 then yday - 1 else yday
    let month := day / 31
    let e := daysBeforeAt (month + 1)
    if day ≥ e then (month + 1 + 1, day - e + 1)
    else (month + 1, day - daysBeforeAt month + 1)

/-- The function `absDate(abs, true)`. -/
def absDate (abs : Int) : CivilDate :=
  let yd := absYear (abs / secondsPerDay)
  let md := monthDay (isLeap yd.1) yd.2
  ⟨yd.1, md.1, md.2, yd.2⟩

/-- The function `absClock`: hour, minute, second of an absolute time. -/
def absClock (abs : Int) : Int × Int × Int :=
  let sec := abs % secondsPerDay
  let hour := sec / secondsPerHour
  let sec := sec - hour * secondsPerHour
  let min := sec / secondsPerMinute
  let sec := sec - min * secondsPerMinute
  (hour, min, sec)

/-- The function `absWeekday`; Sunday is 0. -/
def absWeekday (abs : Int) : Int :=
  let sec := (abs + 1 * secondsPerDay) % secondsPerWeek
  sec / secondsPerDay

/-- The function `norm`: bring `lo` into `[0, base)`, carrying into `hi`. -/
def norm (hi lo base : Int) : Int × Int :=
  let p := if lo < 0 then
      let n := (-lo - 1) / base + 1
      (hi - n, lo + n * base)
    else (hi, lo)
  if p.2 ≥ base then
    let n := p.2 / base
    (p.1 + n, p.2 - n * base)
  else p

/-- The function `daysSinceEpoch`: days from the absolute zero year to the start of `year`. -/
def daysSinceEpoch (year : Int) : Int :=
  let y := year - absoluteZeroYear
  let n := y / 400
  let y := y - 400 * n
  let d := daysPer400Years * n
  let n := y / 100
  let y := y - 100 * n
  let d := d + daysPer100Years * n
  let n := y / 4
  let y := y - 4 * n
  let d := d + daysPer4Years * n
  d + 365 * y

/-- The function `time.Date`. -/
def Date (year month day hour min sec nsec : Int) (loc : Location) : Time :=
  let ym := norm year (month - 1) 12
  let year := ym.1
  let month := ym.2 + 1
  let sn := norm sec nsec 1000000000
  let ms := norm min sn.1 60
  let hm := norm hour ms.1 60
  let dh := norm day hm.1 24
  let d := daysSinceEpoch year
  let d := d + daysBeforeAt (month - 1)
  let d := if isLeap year && month ≥ 3 then d + 1 else d
  let d := d + (dh.1 - 1)
  let abs := d * secondsPerDay + (dh.2 * secondsPerHour + hm.2 * secondsPerMinute + ms.2)
  let unix := abs + (absoluteToInternal + internalToUnix)
  ⟨unix - loc.offset, sn.2, loc⟩

/-- Method `Date`: year, month, day of a time in its location. -/
def Time.Date (t : Time) : Int × Int × Int :=
  let c := absDate t.abs
  (c.year, c.month, c.day)

/-- Method `Clock`: hour, minute, second of a time in its location. -/
def Time.Clock (t : Time) : Int × Int × Int := absClock t.abs

/-- Method `AddDate`. -/
def Time.AddDate (t : Time) (years months days : Int) : Time :=
  let ymd := t.Date
  let hms := t.Clock
  Dateutils.Date (ymd.1 + years) (ymd.2.1 + months) (ymd.2.2 + days) hms.1 hms.2.1 hms.2.2 t.nsec t.loc

/-- The function `time.Unix`. -/
def Unix (sec nsec : Int) : Time :=
  if nsec < 0 ∨ nsec ≥ 1000000000 then
    let n := nsec.tdiv 1000000000
    let sec := wrap64 (sec + n)
    let nsec := nsec - n * 1000000000
    if nsec < 0 then ⟨wrap64 (sec - 1), nsec + 1000000000, UTC⟩ else ⟨sec, nsec, UTC⟩
  else ⟨sec, nsec, UTC⟩

/-- Method `Add`, for a duration `d` in nanoseconds. -/
def Time.Add (t : Time) (d : Int) : Time :=
  let dsec := d.tdiv 1000000000
  let nsec := t.nsec + d.tmod 1000000000
  if nsec ≥ 1000000000 then ⟨t.sec + (dsec + 1), nsec - 1000000000, t.loc⟩
  else if nsec < 0 then ⟨t.sec + (dsec - 1), nsec + 1000000000, t.loc⟩
  else ⟨t.sec + dsec, nsec, t.loc⟩

def minDuration : Int := -2^63
def maxDuration : Int := 2^63 - 1

/-- Method `Sub`: the duration `t - u` in nanoseconds, saturating at the `int64` bounds. -/
def Time.Sub (t u : Time) : Int :=
  let d := wrap64 (wrap64 ((t.sec - u.sec) * 1000000000) + (t.nsec - u.nsec))
  if (u.Add d).Equal t then d
  else if t.Before u then minDuration
  else maxDuration

/-! ## `strings`, `strconv`, `regexp` -/

/-- An ASCII decimal digit. -/
def isDigit (c : Char) : Bool := decide ('0' ≤ c) && decide (c ≤ '9')

/-- Value of a decimal digit character, `c - '0'`. -/
def digitVal (c : Char) : Nat := c.toNat - 48

/-- Go slice expression `s[lo:hi]` on a string; `none` is the out-of-range panic. -/
def slice (s : GoString) (lo hi : Int) : Option GoString :=
  if 0 ≤ lo ∧ lo ≤ hi ∧ hi ≤ s.length then some ((s.drop lo.toNat).take (hi.toNat - lo.toNat))
  else none

/-- The call `strings.SplitN(s, ".", 2)`: the text before the first `.` and, when there is one, the rest. -/
def splitDot : GoString → GoString × Option GoString
  | [] => ([], none)
  | c :: cs =>
    if c == '.' then ([], some cs)
    else let r := splitDot cs; (c :: r.1, r.2)

/-- Loop of `strconv.ParseUint(s, 10, 64)`, with the value accumulated so far. -/
def parseUintLoop : GoString → Nat → Except NumErr Nat
  | [], n => .ok n
  | c :: cs, n =>
    if !isDigit c then .error .invalidSyntax
    else if n ≥ (2^64 - 1) / 10 + 1 then .error .outOfRange
    else if n * 10 + digitVal c > 2^64 - 1 then .error .outOfRange
    else parseUintLoop cs (n * 10 + digitVal c)

/-- The call `strconv.ParseUint(s, 10, 64)`. -/
def ParseUint (s : GoString) : Except NumErr Nat :=
  if s.isEmpty then .error .invalidSyntax else parseUintLoop s 0

/-- The call `strconv.ParseInt(s, 10, 64)`: the returned value and the error, if any. -/
def ParseInt (s : GoString) : Int × Option GoError :=
  match s with
  | [] => (0, some (.numError s .invalidSyntax))
  | c :: cs =>
    let neg := c == '-'
    let body := if c == '+' || c == '-' then cs else s
    match ParseUint body with
    | .error .invalidSyntax => (0, some (.numError s .invalidSyntax))
    | .error .outOfRange =>
      if neg then (-2^63, some (.numError s .outOfRange))
      else (2^63 - 1, some (.numError s .outOfRange))
    | .ok un =>
      if !neg && un ≥ 2^63 then (2^63 - 1, some (.numError s .outOfRange))
      else if neg && un > 2^63 then (-2^63, some (.numError s .outOfRange))
      else (if neg then -(un : Int) else (un : Int), none)

/-- The call `regexp.MatchString("^\\d+$", s)`: one or more ASCII digits and nothing else. -/
def matchDigits (s : GoString) : Bool := !s.isEmpty && s.all isDigit

/-- The function `strings.ToUpper`. A text of ASCII bytes only has its letters a to z mapped
to A to Z, which is the fast path of the library; any other text is mapped rune by rune with
`unicode.ToUpper`, whose tables are the parameter `upperRune`. -/
def ToUpper (upperRune : Char → Char) (s : GoString) : GoString :=
  if s.all (fun c => decide (c.toNat < 128)) then
    s.map fun c => if decide ('a' ≤ c) && decide (c ≤ 'z') then Char.ofNat (c.toNat - 32) else c
  else s.map upperRune

/-! ## `time`: layouts -/

/-- Layout elements recognised by `nextStdChunk` (the `std...` constants); the fractional-second
elements carry their digit count and their separator. -/
inductive Std
  | stdLongMonth | stdMonth | stdNumMonth | stdZeroMonth
  | stdLongWeekDay | stdWeekDay
  | stdDay | stdUnderDay | stdZeroDay | stdUnderYearDay | stdZeroYearDay
  | stdHour | stdHour12 | stdZeroHour12
  | stdMinute | stdZeroMinute | stdSecond | stdZeroSecond
  | stdLongYear | stdYear
  | stdPM | stdpm
  | stdTZ
  | stdISO8601TZ | stdISO8601SecondsTZ | stdISO8601ShortTZ | stdISO8601ColonTZ
  | stdISO8601ColonSecondsTZ
  | stdNumTZ | stdNumSecondsTz | stdNumShortTZ | stdNumColonTZ | stdNumColonSecondsTZ
  | stdFracSecond0 (n : Nat) (sep : Char)
  | stdFracSecond9 (n : Nat) (sep : Char)
deriving DecidableEq, Repr

/-- Test `isDigit(s, 0)` of the `time` package: the string is non-empty and starts with a digit. -/
def headIsDigit : GoString → Bool
  | [] => false
  | c :: _ => isDigit c

def startsWithLowerCase : GoString → Bool
  | [] => false
  | c :: _ => decide ('a' ≤ c) && decide (c ≤ 'z')

def commaOrPeriod (c : Char) : Bool := c == '.' || c == ','

/-- Test `value[0:len(p)] == p`, false when `value` is too short. -/
def hasHead (p : String) (value : GoString) : Bool := p.toList.isPrefixOf value

/-- Table `std0x`: the elements `01` .. `06`. -/
def std0x (c : Char) : Std :=
  if c == '1' then .stdZeroMonth else if c == '2' then .stdZeroDay
  else if c == '3' then .stdZeroHour12 else if c == '4' then .stdZeroMinute
  else if c == '5' then .stdZeroSecond else .stdYear

/-- One iteration of the scan of `nextStdChunk`: the layout element that starts at the head of
`l`, with the text that goes to the literal part before it (non-empty only for `_2006`) and the
rest of the layout. -/
def stdAt (l : GoString) : Option (GoString × Std × GoString) :=
  match l with
  | [] => none
  | c :: cs =>
    if c == 'J' then
      if hasHead "Jan" l then
        if hasHead "January" l then some ([], .stdLongMonth, l.drop 7)
        else if !startsWithLowerCase (l.drop 3) then some ([], .stdMonth, l.drop 3)
        else none
      else none
    else if c == 'M' then
      if hasHead "Mon" l then
        if hasHead "Monday" l then some ([], .stdLongWeekDay, l.drop 6)
        else if !startsWithLowerCase (l.drop 3) then some ([], .stdWeekDay, l.drop 3)
        else none
      else if hasHead "MST" l then some ([], .stdTZ, l.drop 3)
      else none
    else if c == '0' then
      match cs with
      | d :: ds =>
        if decide ('1' ≤ d) && decide (d ≤ '6') then some ([], std0x d, ds)
        else if hasHead "002" l then some ([], .stdZeroYearDay, l.drop 3)
        else none
      | [] => none
    else if c == '1' then
      if hasHead "15" l then some ([], .stdHour, l.drop 2)
      else some ([], .stdNumMonth, cs)
    else if c == '2' then
      if hasHead "2006" l then some ([], .stdLongYear, l.drop 4)
      else some ([], .stdDay, cs)
    else if c == '_' then
      if hasHead "_2" l then
        if hasHead "_2006" l then some (['_'], .stdLongYear, l.drop 5)
        else some ([], .stdUnderDay, l.drop 2)
      else if hasHead "__2" l then some ([], .stdUnderYearDay, l.drop 3)
      else none
    else if c == '3' then some ([], .stdHour12, cs)
    else if c == '4' then some ([], .stdMinute, cs)
    else if c == '5' then some ([], .stdSecond, cs)
    else if c == 'P' then
      if hasHead "PM" l then some ([], .stdPM, l.drop 2) else none
    else if c == 'p' then
      if hasHead "pm" l then some ([], .stdpm, l.drop 2) else none
    else if c == '-' then
      if hasHead "-070000" l then some ([], .stdNumSecondsTz, l.drop 7)
      else if hasHead "-07:00:00" l then some ([], .stdNumColonSecondsTZ, l.drop 9)
      else if hasHead "-0700" l then some ([], .stdNumTZ, l.drop 5)
      else if hasHead "-07:00" l then some ([], .stdNumColonTZ, l.drop 6)
      else if hasHead "-07" l then some ([], .stdNumShortTZ, l.drop 3)
      else none
    else if c == 'Z' then
      if hasHead "Z070000" l then some ([], .stdISO8601SecondsTZ, l.drop 7)
      else if hasHead "Z07:00:00" l then some ([], .stdISO8601ColonSecondsTZ, l.drop 9)
      else if hasHead "Z0700" l then some ([], .stdISO8601TZ, l.drop 5)
      else if hasHead "Z07:00" l then some ([], .stdISO8601ColonTZ, l.drop 6)
      else if hasHead "Z07" l then some ([], .stdISO8601ShortTZ, l.drop 3)
      else none
    else if c == '.' || c == ',' then
      match cs with
      | d :: _ =>
        if d == '0' || d == '9' then
          let run := cs.takeWhile (· == d)
          let rest := cs.dropWhile (· == d)
          if !headIsDigit rest then
            some ([], if d == '9' then .stdFracSecond9 run.length c
              else .stdFracSecond0 run.length c, rest)
          else none
        else none
      | [] => none
    else none

/-- The function `nextStdChunk`: the literal text before the first layout element, that element
(`none` when the layout has no further element) and the layout after it. -/
def nextStdChunk : GoString → GoString × Option Std × GoString
  | [] => ([], none, [])
  | c :: cs =>
    match stdAt (c :: cs) with
    | some (extra, std, suffix) => (extra, some std, suffix)
    | none => let r := nextStdChunk cs; (c :: r.1, r.2.1, r.2.2)

def longDayNames : List String :=
  ["Sunday", "Monday", "Tuesday", "Wednesday", "Thursday", "Friday", "Saturday"]

def shortDayNames : List String := ["Sun", "Mon", "Tue", "Wed", "Thu", "Fri", "Sat"]

def shortMonthNames : List String :=
  ["Jan", "Feb", "Mar", "Apr", "May", "Jun", "Jul", "Aug", "Sep", "Oct", "Nov", "Dec"]

def longMonthNames : List String :=
  ["January", "February", "March", "April", "May", "June", "July", "August", "September",
    "October", "November", "December"]

/-- Method `Month.String` for a month number in 1..12. -/
def monthString (m : Int) : GoString := (longMonthNames.getD (m - 1).toNat "").toList

/-- Method `Weekday.String` for a weekday number in 0..6. -/
def weekdayString (d : Int) : GoString := (longDayNames.getD d.toNat "").toList

/-! ## `time`: formatting -/

/-- The decimal digit `'0' + n`. -/
def digitChar (n : Nat) : Char := Char.ofNat (48 + n)

/-- Loop of `appendInt` that assembles the decimal digits of `u`, most significant first, in
front of `acc`; the fuel is the size of the 20-byte buffer. -/
def decDigits : Nat → Nat → GoString → GoString
  | 0, _, acc => acc
  | fuel + 1, u, acc =>
    if u ≥ 10 then decDigits fuel (u / 10) (digitChar (u % 10) :: acc)
    else digitChar u :: acc

/-- The function `appendInt`: `x` in decimal, zero-padded to `width` digits, appended to `b`. -/
def appendInt (b : GoString) (x : Int) (width : Nat) : GoString :=
  let ds := decDigits 20 x.natAbs []
  (if x < 0 then b ++ ['-'] else b) ++ List.replicate (width - ds.length) '0' ++ ds

/-- Removal of trailing bytes satisfying `p` (the trimming loops of `appendNano`). -/
def dropTrailing (p : Char → Bool) (b : GoString) : GoString := (b.reverse.dropWhile p).reverse

/-- The function `appendNano`; `trim` is true for the `.999` elements. -/
def appendNano (b : GoString) (nanosec : Int) (n : Nat) (sep : Char) (trim : Bool) : GoString :=
  if trim && (n == 0 || nanosec == 0) then b
  else
    let b := appendInt (b ++ [sep]) nanosec 9
    let b := if n < 9 then b.take (b.length - 9 + n) else b
    if trim then
      let b := dropTrailing (· == '0') b
      match b.getLast? with
      | some c => if commaOrPeriod c then b.dropLast else b
      | none => b
    else b

/-- Text appended by `AppendFormat` for the zone elements other than `MST`. -/
def appendZone (b : GoString) (offset : Int) (std : Std) : GoString :=
  if offset == 0 && (std == .stdISO8601TZ || std == .stdISO8601ColonTZ ||
      std == .stdISO8601SecondsTZ || std == .stdISO8601ShortTZ ||
      std == .stdISO8601ColonSecondsTZ) then b ++ ['Z']
  else
    let zone0 := offset.tdiv 60
    let b := if zone0 < 0 then b ++ ['-'] else b ++ ['+']
    let zone := if zone0 < 0 then -zone0 else zone0
    let absoffset := if zone0 < 0 then -offset else offset
    let b := appendInt b (zone.tdiv 60) 2
    let b := if std == .stdISO8601ColonTZ || std == .stdNumColonTZ ||
        std == .stdISO8601ColonSecondsTZ || std == .stdNumColonSecondsTZ then b ++ [':'] else b
    let b := if std != .stdNumShortTZ && std != .stdISO8601ShortTZ then
        appendInt b (zone.tmod 60) 2 else b
    if std == .stdISO8601SecondsTZ || std == .stdNumSecondsTz ||
        std == .stdNumColonSecondsTZ || std == .stdISO8601ColonSecondsTZ then
      let b := if std == .stdNumColonSecondsTZ || std == .stdISO8601ColonSecondsTZ then
          b ++ [':'] else b
      appendInt b (absoffset.tmod 60) 2
    else b

/-- One case of the `switch` of `AppendFormat`: the text of element `std` appended to `b`. -/
def appendStd (b : GoString) (t : Time) (std : Std) : GoString :=
  let abs := t.abs
  let date := absDate abs
  let clock := absClock abs
  let hour := clock.1
  let min := clock.2.1
  let sec := clock.2.2
  match std with
  | .stdYear => appendInt b ((if date.year < 0 then -date.year else date.year).tmod 100) 2
  | .stdLongYear => appendInt b date.year 4
  | .stdMonth => b ++ (monthString date.month).take 3
  | .stdLongMonth => b ++ monthString date.month
  | .stdNumMonth => appendInt b date.month 0
  | .stdZeroMonth => appendInt b date.month 2
  | .stdWeekDay => b ++ (weekdayString (absWeekday abs)).take 3
  | .stdLongWeekDay => b ++ weekdayString (absWeekday abs)
  | .stdDay => appendInt b date.day 0
  | .stdUnderDay => appendInt (if date.day < 10 then b ++ [' '] else b) date.day 0
  | .stdZeroDay => appendInt b date.day 2
  | .stdUnderYearDay =>
    let yday := date.yday + 1
    appendInt (if yday < 100 then (if yday < 10 then b ++ [' ', ' '] else b ++ [' ']) else b) yday 0
  | .stdZeroYearDay => appendInt b (date.yday + 1) 3
  | .stdHour => appendInt b hour 2
  | .stdHour12 => appendInt b (if hour.tmod 12 == 0 then 12 else hour.tmod 12) 0
  | .stdZeroHour12 => appendInt b (if hour.tmod 12 == 0 then 12 else hour.tmod 12) 2
  | .stdMinute => appendInt b min 0
  | .stdZeroMinute => appendInt b min 2
  | .stdSecond => appendInt b sec 0
  | .stdZeroSecond => appendInt b sec 2
  | .stdPM => if hour ≥ 12 then b ++ "PM".toList else b ++ "AM".toList
  | .stdpm => if hour ≥ 12 then b ++ "pm".toList else b ++ "am".toList
  | .stdTZ =>
    if t.loc.name != "" then b ++ t.loc.name.toList
    else
      let zone0 := t.loc.offset.tdiv 60
      let b := if zone0 < 0 then b ++ ['-'] else b ++ ['+']
      let zone := if zone0 < 0 then -zone0 else zone0
      appendInt (appendInt b (zone.tdiv 60) 2) (zone.tmod 60) 2
  | .stdFracSecond0 n sep => appendNano b t.nsec n sep false
  | .stdFracSecond9 n sep => appendNano b t.nsec n sep true
  | _ => appendZone b t.loc.offset std

/-- Loop of `AppendFormat`; the fuel bounds the number of layout elements. -/
def formatLoop : Nat → Time → GoString → GoString → GoString
  | 0, _, _, b => b
  | fuel + 1, t, layout, b =>
    if layout.isEmpty then b
    else
      let ch := nextStdChunk layout
      let b := b ++ ch.1
      match ch.2.1 with
      | none => b
      | some std => formatLoop fuel t ch.2.2 (appendStd b t std)

/-- Method `Time.Format`. -/
def Time.Format (t : Time) (layout : GoString) : GoString :=
  formatLoop (layout.length + 1) t layout []

/-! ## `time`: parsing -/

/-- The function `cutspace`. -/
def cutspace (s : GoString) : GoString := s.dropWhile (· == ' ')

/-- The function `skip`: remove the literal text `pre` from the front of `value`; a space in
`pre` stands for any run of spaces. The fuel bounds the iterations of the loop. -/
def skipLoop : Nat → GoString → GoString → Option GoString
  | 0, value, _ => some value
  | fuel + 1, value, pre =>
    match pre with
    | [] => some value
    | p :: ps =>
      if p == ' ' then
        match value with
        | v :: _ =>
          if v != ' ' then none else skipLoop fuel (cutspace value) (cutspace pre)
        | [] => skipLoop fuel (cutspace value) (cutspace pre)
      else
        match value with
        | v :: vs => if v != p then none else skipLoop fuel vs ps
        | [] => none

/-- The function `skip`. -/
def skip (value pre : GoString) : Option GoString := skipLoop (pre.length + 1) value pre

/-- The function `getnum`: a one- or two-digit number (two digits when `fixed`) and the rest. -/
def getnum (s : GoString) (fixed : Bool) : Option (Int × GoString) :=
  match s with
  | [] => none
  | c :: cs =>
    if !isDigit c then none
    else if !headIsDigit cs then
      if fixed then none else some ((digitVal c : Int), cs)
    else
      match cs with
      | d :: ds => some ((digitVal c : Int) * 10 + (digitVal d : Int), ds)
      | [] => none

/-- The function `leadingInt`, with the value accumulated so far: the leading decimal number
and the rest; `none` on overflow. -/
def leadingInt : GoString → Nat → Option (Nat × GoString)
  | [], x => some (x, [])
  | c :: cs, x =>
    if !isDigit c then some (x, c :: cs)
    else if x > 2^63 / 10 then none
    else if x * 10 + digitVal c > 2^63 then none
    else leadingInt cs (x * 10 + digitVal c)

/-- The function `atoi` of the `time` package. -/
def atoi (s : GoString) : Option Int :=
  let neg := match s with
    | c :: _ => c == '-'
    | [] => false
  let body := match s with
    | c :: cs => if c == '-' || c == '+' then cs else s
    | [] => s
  match leadingInt body 0 with
  | none => none
  | some (q, rem) => if !rem.isEmpty then none else some (if neg then -(q : Int) else (q : Int))

/-- The function `match`: equality of two strings of the same length, ignoring ASCII case. -/
def matchFold : GoString → GoString → Bool
  | c1 :: s1, c2 :: s2 =>
    (if c1 != c2 then
      let l1 := c1.toNat ||| 32
      let l2 := c2.toNat ||| 32
      !(l1 != l2 || l1 < 97 || l1 > 122)
    else true) && matchFold s1 s2
  | _, _ => true

/-- The function `lookup`: index of the first name of `tab` that starts `val`, ignoring case. -/
def lookupFrom : List String → Nat → GoString → Option (Int × GoString)
  | [], _, _ => none
  | v :: tab, i, val =>
    if val.length ≥ v.length && matchFold (val.take v.length) v.toList then
      some ((i : Int), val.drop v.length)
    else lookupFrom tab (i + 1) val

/-- The function `lookup`. -/
def lookup (tab : List String) (val : GoString) : Option (Int × GoString) := lookupFrom tab 0 val

/-- The function `parseNanoseconds(value, nbytes)`, for a non-empty `value`. -/
def parseNanoseconds (value : GoString) (nbytes : Nat) : Except ParseError Int :=
  match value with
  | [] => .error .bad
  | c :: _ =>
    if !commaOrPeriod c then .error .bad
    else
      let nbytes := if nbytes > 10 then 10 else nbytes
      match atoi ((value.take nbytes).drop 1) with
      | none => .error .bad
      | some ns =>
        if ns < 0 then .error (.outOfRange "fractional second")
        else .ok (ns * 10 ^ (10 - nbytes))

/-- The variables of `parse` that describe the time being constructed. -/
structure Fields where
  year : Int := 0
  month : Int := -1
  day : Int := -1
  hour : Int := 0
  min : Int := 0
  sec : Int := 0
  nsec : Int := 0
  z : Option Location := none
  zoneOffset : Int := -1
deriving DecidableEq, Repr

/-- Case of the numeric zone elements `-0700`, `-07:00`, `Z0700` and `Z07:00` in `parse`. -/
def parseZone (std : Std) (value : GoString) (f : Fields) : Except ParseError (GoString × Fields) :=
  if (std == .stdISO8601TZ || std == .stdISO8601ColonTZ) && hasHead "Z" value then
    .ok (value.drop 1, { f with z := some UTC })
  else
    let colon := std == .stdISO8601ColonTZ || std == .stdNumColonTZ
    if colon && value.length < 6 then .error .bad
    else if colon && value.getD 3 ' ' != ':' then .error .bad
    else if !colon && value.length < 5 then .error .bad
    else
      let sign := value.getD 0 ' '
      let hour := (value.drop 1).take 2
      let min := if colon then (value.drop 4).take 2 else (value.drop 3).take 2
      let rest := if colon then value.drop 6 else value.drop 5
      match getnum hour true with
      | none => .error .bad
      | some (hr, _) =>
        match getnum min true with
        | none => if hr > 24 then .error (.outOfRange "time zone offset hour") else .error .bad
        | some (mm, _) =>
          if mm > 60 then .error (.outOfRange "time zone offset minute")
          else if hr > 24 then .error (.outOfRange "time zone offset hour")
          else if sign == '+' then .ok (rest, { f with zoneOffset := (hr * 60 + mm) * 60 })
          else if sign == '-' then .ok (rest, { f with zoneOffset := -((hr * 60 + mm) * 60) })
          else .error .bad

/-- Case of the seconds elements `5` and `05` in `parse`; `layout` is the layout after the
element, inspected for a fractional-second element. -/
def parseSecond (std : Std) (layout value : GoString) (f : Fields) :
    Except ParseError (GoString × Fields) :=
  match getnum value (std == .stdZeroSecond) with
  | none => .error .bad
  | some (sec, value) =>
    if sec < 0 || 60 ≤ sec then .error (.outOfRange "second")
    else
      let f := { f with sec := sec }
      match value with
      | c :: d :: _ =>
        if commaOrPeriod c && isDigit d then
          match (nextStdChunk layout).2.1 with
          | some (.stdFracSecond0 _ _) => .ok (value, f)
          | some (.stdFracSecond9 _ _) => .ok (value, f)
          | _ =>
            let n := 2 + ((value.drop 2).takeWhile isDigit).length
            match parseNanoseconds value n with
            | .error e => .error e
            | .ok nsec => .ok (value.drop n, { f with nsec := nsec })
        else .ok (value, f)
      | _ => .ok (value, f)

/-- One case of the `switch` of `parse`: consume from `value` the text of the layout element
`std` and record it. Only the elements that occur in the layouts of this package are
embedded; any other element yields `ParseError.unsupported`. -/
def parseStd (std : Std) (layout value : GoString) (f : Fields) :
    Except ParseError (GoString × Fields) :=
  match std with
  | .stdLongYear =>
    if value.length < 4 || !headIsDigit value then .error .bad
    else
      match atoi (value.take 4) with
      | none => .error .bad
      | some year => .ok (value.drop 4, { f with year := year })
  | .stdMonth =>
    match lookup shortMonthNames value with
    | none => .error .bad
    | some (m, value) => .ok (value, { f with month := m + 1 })
  | .stdNumMonth | .stdZeroMonth =>
    match getnum value (std == .stdZeroMonth) with
    | none => .error .bad
    | some (month, value) =>
      if month ≤ 0 || 12 < month then .error (.outOfRange "month")
      else .ok (value, { f with month := month })
  | .stdWeekDay =>
    match lookup shortDayNames value with
    | none => .error .bad
    | some (_, value) => .ok (value, f)
  | .stdDay | .stdZeroDay =>
    match getnum value (std == .stdZeroDay) with
    | none => .error .bad
    | some (day, value) => .ok (value, { f with day := day })
  | .stdHour =>
    match getnum value false with
    | none => .error .bad
    | some (hour, value) =>
      if hour < 0 || 24 ≤ hour then .error (.outOfRange "hour")
      else .ok (value, { f with hour := hour })
  | .stdMinute | .stdZeroMinute =>
    match getnum value (std == .stdZeroMinute) with
    | none => .error .bad
    | some (min, value) =>
      if min < 0 || 60 ≤ min then .error (.outOfRange "minute")
      else .ok (value, { f with min := min })
  | .stdSecond | .stdZeroSecond => parseSecond std layout value f
  | .stdISO8601TZ | .stdISO8601ColonTZ | .stdNumTZ | .stdNumColonTZ => parseZone std value f
  | .stdFracSecond0 n _ =>
    let ndigit := 1 + n
    if value.length < ndigit then .error .bad
    else
      match parseNanoseconds value ndigit with
      | .error e => .error e
      | .ok nsec => .ok (value.drop ndigit, { f with nsec := nsec })
  | .stdFracSecond9 _ _ =>
    match value with
    | c :: d :: _ =>
      if !commaOrPeriod c || !isDigit d then .ok (value, f)
      else
        let i := ((value.drop 1).takeWhile isDigit).length
        match parseNanoseconds value (1 + i) with
        | .error e => .error e
        | .ok nsec => .ok (value.drop (1 + i), { f with nsec := nsec })
    | _ => .ok (value, f)
  | _ => .error .unsupported

/-- Main loop of `parse`; the fuel bounds the number of layout elements. -/
def parseLoop : Nat → GoString → GoString → Fields → Except ParseError Fields
  | 0, _, _, _ => .error .unsupported
  | fuel + 1, layout, value, f =>
    let ch := nextStdChunk layout
    match skip value ch.1 with
    | none => .error .bad
    | some value =>
      match ch.2.1 with
      | none => if value.isEmpty then .ok f else .error .extraText
      | some std =>
        match parseStd std ch.2.2 value f with
        | .error e => .error e
        | .ok (value, f) => parseLoop fuel ch.2.2 value f

/-- End of `parse`: validate the day of the month and build the time. A numeric zone offset
gives the instant that far from UTC, attached to a fixed zone of that offset. -/
def buildTime (f : Fields) : Except ParseError Time :=
  let month := if f.month < 0 then 1 else f.month
  let day := if f.day < 0 then 1 else f.day
  if day < 1 || day > daysIn month f.year then .error .dayOutOfRange
  else
    match f.z with
    | some z => .ok (Date f.year month day f.hour f.min f.sec f.nsec z)
    | none =>
      if f.zoneOffset != -1 then
        let t := Date f.year month day f.hour f.min f.sec f.nsec UTC
        .ok ⟨t.sec - f.zoneOffset, t.nsec, ⟨"", f.zoneOffset⟩⟩
      else .ok (Date f.year month day f.hour f.min f.sec f.nsec UTC)

/-- The function `time.Parse`. -/
def Parse (layout value : GoString) : Except ParseError Time :=
  match parseLoop (layout.length + 1) layout value {} with
  | .error e => .error e
  | .ok f => buildTime f

/-! ## `github.com/rickb777/date`: dates, time spans, periods -/

/-- The function `encode` of package `date`: the day number of a time, in the time's zone. -/
def dateEncode (t : Time) : Int :=
  let secs := t.sec + t.loc.offset
  if secs ≥ 0 then secs / 86400 else -((86400 - 1 - secs) / 86400)

/-- The function `date.Parse`: the day number since 1970-01-01 of the parsed date. -/
def dateParse (layout value : GoString) : Except ParseError Int :=
  match Parse layout value with
  | .error e => .error e
  | .ok t => .ok (dateEncode t)

/-- Method `Date.In`: midnight of the day in the given location. -/
def dateIn (day : Int) (loc : Location) : Time :=
  let t := (Unix (day * 86400) 0).In loc
  t.Add (-loc.offset * 1000000000)

/-- A `timespan.TimeSpan`: a start and a duration in nanoseconds. -/
structure TimeSpan where
  mark : Time
  duration : Int
deriving DecidableEq, Repr

/-- The function `timespan.NewTimeSpan`. -/
def NewTimeSpan (t1 t2 : Time) : TimeSpan :=
  if t2.Before t1 then ⟨t2, t1.Sub t2⟩ else ⟨t1, t2.Sub t1⟩

def TimeSpan.Start (ts : TimeSpan) : Time := ts.mark

def TimeSpan.End (ts : TimeSpan) : Time := ts.mark.Add ts.duration

/-- The operations of package `period` that this package calls. `ParseWithNormalise` is the
call with `normalise = true`; `AddTo` drops the precision flag, which every caller discards. -/
structure PeriodLib where
  Period : Type
  ParseWithNormalise : GoString → Except GoError Period
  PString : Period → GoString
  IsNegative : Period → Bool
  IsPositive : Period → Bool
  Negate : Period → Period
  AddTo : Period → Time → Time

/-- A period with whole-number fields, as stored by package `period`. -/
structure WholePeriod where
  years : Int
  months : Int
  days : Int
  hours : Int
  minutes : Int
  seconds : Int
deriving DecidableEq, Repr

/-- Decimal value of a string of digits. -/
def decimalValue (s : GoString) : Nat := s.foldl (fun n c => n * 10 + digitVal c) 0

/-- Read one field `<digits><mark>` of a period, if the text starts with one. -/
def readField (mark : Char) (s : GoString) : Nat × GoString :=
  let ds := s.takeWhile isDigit
  let rest := s.dropWhile isDigit
  match rest with
  | c :: tl => if !ds.isEmpty && c == mark then (decimalValue ds, tl) else (0, s)
  | [] => (0, s)

/-- Parser of the reference period model: `[+-]P[nY][nM][nW][nD][T[nH][nM][nS]]` with whole
numbers that are already normalised (months below 12, minutes and seconds below 60); weeks
are stored as seven days each. The library accepts more texts (fractions, numbers that need
normalising); this model rejects them. -/
def wholeParse (input : GoString) : Except GoError WholePeriod :=
  let fail : Except GoError WholePeriod := .error (.errorf "cannot parse %s as a period" input)
  let neg := hasHead "-" input
  let body := if hasHead "-" input || hasHead "+" input then input.drop 1 else input
  match body with
  | 'P' :: s0 =>
    let y := readField 'Y' s0
    let mo := readField 'M' y.2
    let w := readField 'W' mo.2
    let d0 := readField 'D' w.2
    let d : Nat × GoString := (w.1 * 7 + d0.1, d0.2)
    let time := match d.2 with
      | 'T' :: s1 =>
        let h := readField 'H' s1
        let mi := readField 'M' h.2
        let se := readField 'S' mi.2
        if se.2.length < s1.length then some (h.1, mi.1, se.1, se.2) else none
      | rest => some (0, 0, 0, rest)
    match time with
    | none => fail
    | some (h, mi, se, rest) =>
      if !rest.isEmpty || s0.isEmpty then fail
      else if y.1 > 3276 || mo.1 ≥ 12 || d.1 > 3276 || h > 3276 || mi ≥ 60 || se ≥ 60 then fail
      else
        let sg : Int := if neg then -1 else 1
        .ok ⟨sg * y.1, sg * mo.1, sg * d.1, sg * h, sg * mi, sg * se⟩
  | _ => fail

def WholePeriod.IsNegative (p : WholePeriod) : Bool :=
  p.years < 0 || p.months < 0 || p.days < 0 || p.hours < 0 || p.minutes < 0 || p.seconds < 0

def WholePeriod.IsPositive (p : WholePeriod) : Bool :=
  p.years > 0 || p.months > 0 || p.days > 0 || p.hours > 0 || p.minutes > 0 || p.seconds > 0

def WholePeriod.Negate (p : WholePeriod) : WholePeriod :=
  ⟨-p.years, -p.months, -p.days, -p.hours, -p.minutes, -p.seconds⟩

/-- One field of the ISO-8601 text of a period. -/
def fieldText (v : Int) (mark : Char) : GoString :=
  if v == 0 then [] else appendInt [] (if v < 0 then -v else v) 0 ++ [mark]

/-- Method `String` of the reference period model; a number of days that is a multiple of
seven is printed in weeks. -/
def WholePeriod.PString (p : WholePeriod) : GoString :=
  if p = ⟨0, 0, 0, 0, 0, 0⟩ then "P0D".toList
  else
    let days := if p.days % 7 == 0 then fieldText (p.days / 7) 'W' else fieldText p.days 'D'
    let date := fieldText p.years 'Y' ++ fieldText p.months 'M' ++ days
    let time := fieldText p.hours 'H' ++ fieldText p.minutes 'M' ++ fieldText p.seconds 'S'
    (if p.IsNegative then ['-'] else []) ++ ['P'] ++ date ++
      (if time.isEmpty then [] else 'T' :: time)

/-- Method `AddTo` of the reference period model: whole years, months and days through
`AddDate`, the time of day as a duration. -/
def WholePeriod.AddTo (p : WholePeriod) (t : Time) : Time :=
  (t.AddDate p.years p.months p.days).Add
    ((p.hours * 3600 + p.minutes * 60 + p.seconds) * 1000000000)

/-- Reference model of a fragment of package `period`: whole-number periods whose text is
already normalised. The source of the package is not part of this repository, so the theorems
about the period functions are stated for every `PeriodLib`; this instance only serves to
evaluate them at concrete texts of the fragment. -/
def wholePeriodLib : PeriodLib where
  Period := WholePeriod
  ParseWithNormalise := wholeParse
  PString := WholePeriod.PString
  IsNegative := WholePeriod.IsNegative
  IsPositive := WholePeriod.IsPositive
  Negate := WholePeriod.Negate
  AddTo := WholePeriod.AddTo

/-! ## Package `dateutils` -/

/-- The table `timeFormats`, in declared order. -/
def timeFormats : List String := [
  -- RFC7232
  "Mon, 02 Jan 2006 15:04:05 GMT",
  -- Short date time with numerical zone offsets
  "20060102T150405-0700",
  "20060102T150405.000-0700",
  "20060102T150405.000000-0700",
  "20060102T150405.999999999-0700",
  -- Long date time with numerical zone offsets
  "2006-01-02T15:04:05-07:00",
  "2006-01-02T15:04:05.000-07:00",
  "2006-01-02T15:04:05.000000-07:00",
  "2006-01-02T15:04:05.999999999-07:00",
  -- Short date time with zulu zone offsets
  "20060102T150405Z",
  "20060102T150405.000Z",
  "20060102T150405.000000Z",
  "20060102T150405.999999999Z",
  -- Long date time with zulu zone offsets
  "2006-01-02T15:04:05Z",
  "2006-01-02T15:04:05.000Z",
  "2006-01-02T15:04:05.000000Z",
  "2006-01-02T15:04:05.999999999Z",
  -- Just in case, Opta
  "2006-01-02 15-04-05",
  -- Short date time with no zone offset. Assume UTC.
  "20060102T150405",
  "20060102T150405.000",
  "20060102T150405.000000",
  "20060102T150405.999999999",
  -- Hopefully less likely to be found. Assume UTC.
  "20060102",
  "2006-01-02",
  "2006/01/02",
  "01/02/2006",
  "1/2/2006",
  -- Weird ones with improper separators
  "2006-01-02T15-04-05Z",
  "2006-01-02T15-04-05.000Z",
  "2006-01-02T15-04-05.000000Z",
  "2006-01-02T15-04-05.999999999Z",
  -- Weird ones with improper separators
  "2006-01-02T15-04-05-0700",
  "2006-01-02T15-04-05.000-0700",
  "2006-01-02T15-04-05.000000-0700",
  "2006-01-02T15-04-05.999999999-0700",
  "2006-01-02T15-04-05-07:00",
  "2006-01-02T15-04-05.000-07:00",
  "2006-01-02T15-04-05.000000-07:00",
  "2006-01-02T15-04-05.999999999-07:00",
  -- time.RFC3339
  "2006-01-02T15:04:05Z07:00"]

/-- The expression `int64(float64(n) * math.Pow(10, float64(9 - len)))` of `parseTimestamp`.
For `len ≤ 9` every intermediate value is an integer below `2^53`, so the floating-point
computation is exact; for longer fractions the rounded result is the parameter `fscale`. -/
def scaleNanos (fscale : Int → Nat → Int) (n : Int) (len : Nat) : Int :=
  if len ≤ 9 then n * 10 ^ (9 - len) else fscale n len

/-- The function `parseTimestamp`: seconds, nanoseconds and error. -/
def parseTimestamp (fscale : Int → Nat → Int) (value : GoString) : Int × Int × Option GoError :=
  let sa := splitDot value
  let s := ParseInt sa.1
  match s.2 with
  | some err => (s.1, 0, some err)
  | none =>
    match sa.2 with
    | none => (s.1, 0, none)
    | some frac =>
      let n := ParseInt frac
      match n.2 with
      | some err => (s.1, n.1, some err)
      | none => (s.1, scaleNanos fscale n.1 frac.length, none)

/-- The loop of `ParseWithLocation` over the layouts: the first layout that parses wins. -/
def parseFormats : List String → GoString → Location → Option Time
  | [], _, _ => none
  | format :: rest, timeStr, loc =>
    match Parse format.toList timeStr with
    | .ok t => some (t.In loc)
    | .error _ => parseFormats rest timeStr loc

/-- The function `ParseWithLocation`. The pattern of `regexp.MatchString` is a constant that
compiles, so its error branch is never taken and is left out. -/
def ParseWithLocation (fscale : Int → Nat → Int) (timeStr : GoString) (loc : Location) :
    Outcome (Option Time × Option GoError) :=
  if matchDigits timeStr then
    let toSend : Option GoString :=
      if timeStr.length > 10 then
        match slice timeStr 0 10, slice timeStr 11 (timeStr.length - 1) with
        | some sec, some nsec => some (sec ++ ['.'] ++ nsec)
        | _, _ => none
      else some timeStr
    match toSend with
    | none => .panic
    | some toSend =>
      let r := parseTimestamp fscale toSend
      match r.2.2 with
      | some err => .ret (some zeroTime, some err)
      | none => .ret (some ((Unix r.1 r.2.1).In loc), none)
  else
    match parseFormats timeFormats timeStr loc with
    | some t => .ret (some t, none)
    | none => .ret (some zeroTime, some (.errorsNew "Could not parse time"))

/-- The function `ParseGetUTC`. -/
def ParseGetUTC (fscale : Int → Nat → Int) (timeStr : GoString) :
    Outcome (Option Time × Option GoError) :=
  ParseWithLocation fscale timeStr UTC

/-- The function `RFC7232`; the layout is `http.TimeFormat`. -/
def RFC7232 (t : Time) : GoString := (t.In UTC).Format "Mon, 02 Jan 2006 15:04:05 GMT".toList

/-- The function `ISO8601Long`. -/
def ISO8601Long (t : Time) : GoString := (t.In UTC).Format "2006-01-02T15:04:05-07:00".toList

/-- The function `ISO8601LongMsec`. -/
def ISO8601LongMsec (t : Time) : GoString :=
  (t.In UTC).Format "2006-01-02T15:04:05.000-07:00".toList

/-- The function `ISO8601Short`. -/
def ISO8601Short (t : Time) : GoString := (t.In UTC).Format "20060102T150405-0700".toList

/-- The function `ISO8601ShortMsec`. -/
def ISO8601ShortMsec (t : Time) : GoString := (t.In UTC).Format "20060102T150405.000-0700".toList

/-- The function `TimesForDateRange`: start, end and error. -/
def TimesForDateRange (start endS : GoString) : Option Time × Option Time × Option GoError :=
  match dateParse "2006-01-02".toList start with
  | .error e => (none, none, some (.wrapped "error when parsing start %v" e))
  | .ok d1 =>
    match dateParse "2006-01-02".toList endS with
    | .error e => (none, none, some (.wrapped "error when parsing end %v" e))
    | .ok d2 =>
      let ts := NewTimeSpan (dateIn d1 UTC) (dateIn d2 UTC)
      (some ts.Start, some ts.End, none)

/-- The variables captured by the function that `RangeDate` returns. -/
structure RangeState where
  start : Time
  stop : Time
deriving DecidableEq, Repr

/-- The function `RangeDate`: the state of the returned range function. -/
def RangeDate (start stop : Time) : RangeState :=
  let start := start.In UTC
  let stop := stop.In UTC
  let s := start.Date
  let e := stop.Date
  ⟨Date s.1 s.2.1 s.2.2 0 0 0 0 UTC, Date e.1 e.2.1 e.2.2 0 0 0 0 UTC⟩

/-- One call of the range function: the returned date and the updated state. -/
def RangeState.call (s : RangeState) : Time × RangeState :=
  if s.start.After s.stop then (zeroTime, s)
  else (s.start, { s with start := s.start.AddDate 0 0 1 })

/-- The dates returned by the first `n` calls of a range function. -/
def RangeState.calls : Nat → RangeState → List Time
  | 0, _ => []
  | n + 1, s => s.call.1 :: RangeState.calls n s.call.2

/-- The function `DateZeroTime`. -/
def DateZeroTime (t : Time) : Time :=
  let t := t.In UTC
  let d := t.Date
  Date d.1 d.2.1 d.2.2 0 0 0 0 UTC

section Periods

variable (lib : PeriodLib) (upperRune : Char → Char)

/-- The function `IsPeriod`. -/
def IsPeriod (input : GoString) : Bool :=
  match lib.ParseWithNormalise (ToUpper upperRune input) with
  | .ok _ => true
  | .error _ => false

/-- The function `Period`: output and error. The second call of `ParseWithNormalise` repeats
the call made by `IsPeriod`, so its error case, which the code ignores, cannot occur. -/
def Period (input : GoString) : GoString × Option GoError :=
  if IsPeriod lib upperRune input == false then ([], some (.errorf "invalid period %s" input))
  else
    match lib.ParseWithNormalise (ToUpper upperRune input) with
    | .ok p => (lib.PString p, none)
    | .error _ => ([], none)

/-- The function `PeriodPositive`: output and error. -/
def PeriodPositive (input : GoString) : GoString × Option GoError :=
  if IsPeriod lib upperRune input == false then ([], some (.errorf "invalid period %s" input))
  else
    match lib.ParseWithNormalise (ToUpper upperRune input) with
    | .ok p => (lib.PString (if lib.IsNegative p then lib.Negate p else p), none)
    | .error _ => ([], none)

/-- The function `PeriodNegative`: output and error. -/
def PeriodNegative (input : GoString) : GoString × Option GoError :=
  if IsPeriod lib upperRune input == false then ([], some (.errorf "invalid period %s" input))
  else
    match lib.ParseWithNormalise (ToUpper upperRune input) with
    | .ok p => (lib.PString (if lib.IsPositive p then lib.Negate p else p), none)
    | .error _ => ([], none)

/-- The function `PeriodAdd`; the messages it prints are left out. -/
def PeriodAdd (t : Time) (input : GoString) : Time × Option GoError :=
  let t := t.In UTC
  if IsPeriod lib upperRune input == false then (zeroTime, some (.errorf "invalid period %s" input))
  else
    match lib.ParseWithNormalise (ToUpper upperRune input) with
    | .error err => (zeroTime, some err)
    | .ok p => ((lib.AddTo p t).In UTC, none)

/-- The function `PeriodSubtract`. -/
def PeriodSubtract (t : Time) (input : GoString) : Time × Option GoError :=
  if IsPeriod lib upperRune input == false then (zeroTime, some (.errorf "Invalid period %s" input))
  else
    match lib.ParseWithNormalise (ToUpper upperRune input) with
    | .error err => (zeroTime, some err)
    | .ok p =>
      let newTime := lib.AddTo (lib.Negate p) t
      let newTime := if lib.IsNegative p == true then lib.AddTo p t else newTime
      (newTime.In UTC, none)

end Periods

/-- The function `StartIsBeforeEnd`; the subtraction is an `int64` subtraction. -/
def StartIsBeforeEnd (t1 t2 : Time) : Bool :=
  let t1 := t1.In UTC
  let t2 := t2.In UTC
  decide (wrap64 (t2.Unix - t1.Unix) > 0)

/-! ## Auxiliary definitions for the proofs -/

/-- Property of `monthDay` checked on one day of the year. -/
def monthDayOK (leap : Bool) (yd : Int) : Bool :=
  let md := monthDay leap yd
  decide (1 ≤ md.1) && decide (md.1 ≤ 12) && decide (1 ≤ md.2) && decide (md.2 ≤ 31) &&
    decide (md.2 ≤ (if md.1 == 2 && leap then 29 else daysBeforeAt md.1 - daysBeforeAt (md.1 - 1))) &&
    decide (daysBeforeAt (md.1 - 1) + (if leap && decide (md.1 ≥ 3) then 1 else 0) + (md.2 - 1) = yd)

/-- The UTC calendar day of an instant, as a day number counted from 1970-01-01. -/
def utcDay (t : Time) : Int := t.sec / 86400

/-- The instant 00:00:00 UTC of a day number. -/
def midnightUTC (day : Int) : Time := ⟨day * 86400, 0, UTC⟩

/-- The `w` low-order decimal digits of `n`, most significant first. -/
def padDigits : Nat → Nat → GoString
  | 0, _ => []
  | w + 1, n => padDigits w (n / 10) ++ [digitChar (n % 10)]

/-- The successive results of `nextStdChunk` on a layout, up to and including the one without
a layout element. -/
def layoutChunks : Nat → GoString → List (GoString × Option Std × GoString)
  | 0, _ => []
  | fuel + 1, layout =>
    let ch := nextStdChunk layout
    match ch.2.1 with
    | none => [ch]
    | some _ => ch :: layoutChunks fuel ch.2.2

/-- The loop of `parse` run over a list of layout chunks. -/
def parseChunks : List (GoString × Option Std × GoString) → GoString → Fields →
    Except ParseError Fields
  | [], _, _ => .error .unsupported
  | ch :: rest, value, f =>
    match skip value ch.1 with
    | none => .error .bad
    | some value =>
      match ch.2.1 with
      | none => if value.isEmpty then .ok f else .error .extraText
      | some std =>
        match parseStd std ch.2.2 value f with
        | .error e => .error e
        | .ok (value, f) => parseChunks rest value f

/-- The loop of `AppendFormat` run over a list of layout chunks. -/
def formatChunks : List (GoString × Option Std × GoString) → Time → GoString → GoString
  | [], _, b => b
  | ch :: rest, t, b =>
    match ch.2.1 with
    | none => b ++ ch.1
    | some std => formatChunks rest t (appendStd (b ++ ch.1) t std)

/-- The layout elements that `parseStd` embeds. -/
def supportedStd : Std → Bool
  | .stdLongYear | .stdMonth | .stdNumMonth | .stdZeroMonth | .stdWeekDay | .stdDay | .stdZeroDay
  | .stdHour | .stdMinute | .stdZeroMinute | .stdSecond | .stdZeroSecond
  | .stdISO8601TZ | .stdISO8601ColonTZ | .stdNumTZ | .stdNumColonTZ
  | .stdFracSecond0 _ _ | .stdFracSecond9 _ _ => true
  | _ => false

/-- A layout is covered by the embedding: the fuel of the loops reaches the end of the layout
and every element is one that `parseStd` embeds. -/
def layoutCovered (l : String) : Bool :=
  let cs := layoutChunks (l.toList.length + 1) l.toList
  (cs.getLast?.map fun ch => ch.2.1) == some none &&
    cs.all fun ch => match ch.2.1 with
      | none => true
      | some s => supportedStd s

/-- The mapping `unicode.ToUpper` on the runes up to U+00FF and on U+0131 and U+017F, the
identity elsewhere. `ToUpper` consults the rune mapping only for a text with a rune outside
ASCII; the evaluations below use texts made of the runes covered here. -/
def upperRuneLatin (c : Char) : Char :=
  let n := c.toNat
  if 97 ≤ n ∧ n ≤ 122 then Char.ofNat (n - 32)
  else if n = 181 then Char.ofNat 924
  else if 224 ≤ n ∧ n ≤ 254 ∧ n ≠ 247 then Char.ofNat (n - 32)
  else if n = 255 then Char.ofNat 376
  else if n = 305 then 'I'
  else if n = 383 then 'S'
  else c

/-! ## Theorems: calendar arithmetic -/

theorem daysSinceEpoch_cycle (a b c d : Int) (hb : 0 ≤ b) (hb3 : b ≤ 3) (hc : 0 ≤ c)
    (hc3 : c ≤ 24) (hd : 0 ≤ d) (hd3 : d ≤ 3) :
    daysSinceEpoch (400 * a + 100 * b + 4 * c + d + absoluteZeroYear)
      = 146097 * a + 36524 * b + 1461 * c + 365 * d := by
  simp only [daysSinceEpoch, absoluteZeroYear, daysPer400Years, daysPer100Years, daysPer4Years]
  have e : 400 * a + 100 * b + 4 * c + d + -292277022399 - -292277022399
      = 400 * a + (100 * b + 4 * c + d) := by ring
  rw [e]
  have h1 : (400 * a + (100 * b + 4 * c + d)) / 400 = a := by omega
  rw [h1]
  have e2 : 400 * a + (100 * b + 4 * c + d) - 400 * a = 100 * b + (4 * c + d) := by ring
  rw [e2]
  have h2 : (100 * b + (4 * c + d)) / 100 = b := by omega
  rw [h2]
  have e3 : 100 * b + (4 * c + d) - 100 * b = 4 * c + d := by ring
  rw [e3]
  have h3 : (4 * c + d) / 4 = c := by omega
  rw [h3]
  ring

theorem isLeap_cycle (a b c d : Int) (hb : 0 ≤ b) (hb3 : b ≤ 3) (hc : 0 ≤ c)
    (hc3 : c ≤ 24) (hd : 0 ≤ d) (hd3 : d ≤ 3) :
    isLeap (400 * a + 100 * b + 4 * c + d + absoluteZeroYear)
      = decide (d = 3 ∧ (c ≠ 24 ∨ b = 3)) := by
  simp only [isLeap, absoluteZeroYear]
  rw [Bool.eq_iff_iff]
  simp only [Bool.and_eq_true, Bool.or_eq_true, beq_iff_eq, bne_iff_ne, decide_eq_true_eq, ne_eq]
  constructor
  · rintro ⟨h1, h2⟩
    have hd : d = 3 := by omega
    refine ⟨hd, ?_⟩
    by_contra hcon
    push_neg at hcon
    rcases h2 with h2 | h2 <;> omega
  · rintro ⟨h1, h2⟩
    refine ⟨by omega, ?_⟩
    rcases h2 with h2 | h2
    · left; omega
    · by_cases hc24 : c = 24
      · right; omega
      · left; omega

theorem absYear_cycle (D : Int) :
    ∃ a b c d r : Int, 0 ≤ b ∧ b ≤ 3 ∧ 0 ≤ c ∧ c ≤ 24 ∧ 0 ≤ d ∧ d ≤ 3 ∧ 0 ≤ r ∧ r < 366 ∧
      (365 ≤ r → d = 3 ∧ (c ≠ 24 ∨ b = 3)) ∧
      D = 146097 * a + 36524 * b + 1461 * c + 365 * d + r ∧
      absYear D = (400 * a + 100 * b + 4 * c + d + absoluteZeroYear, r) := by
  have hr1b : 0 ≤ D - 146097 * (D / 146097) ∧ D - 146097 * (D / 146097) < 146097 := by omega
  generalize hr1 : D - 146097 * (D / 146097) = r1 at hr1b
  have hq2b : 0 ≤ r1 / 36524 ∧ r1 / 36524 ≤ 4 := by omega
  have hn2b : 0 ≤ r1 / 36524 - r1 / 36524 / 4 ∧ r1 / 36524 - r1 / 36524 / 4 ≤ 3 := by omega
  have hr2b : 0 ≤ r1 - 36524 * (r1 / 36524 - r1 / 36524 / 4) ∧
      r1 - 36524 * (r1 / 36524 - r1 / 36524 / 4) ≤ 36524 ∧
      (r1 / 36524 - r1 / 36524 / 4 ≠ 3 → r1 - 36524 * (r1 / 36524 - r1 / 36524 / 4) < 36524) := by
    omega
  generalize hn2 : r1 / 36524 - r1 / 36524 / 4 = n2 at hn2b hr2b
  generalize hr2 : r1 - 36524 * n2 = r2 at hr2b
  have hq3b : 0 ≤ r2 / 1461 ∧ r2 / 1461 ≤ 24 := by omega
  have hr3b : 0 ≤ r2 - 1461 * (r2 / 1461) ∧ r2 - 1461 * (r2 / 1461) < 1461 ∧
      (r2 / 1461 = 24 → n2 ≠ 3 → r2 - 1461 * (r2 / 1461) < 1460) := by omega
  generalize hq3 : r2 / 1461 = q3 at hq3b hr3b
  generalize hr3 : r2 - 1461 * q3 = r3 at hr3b
  have hn4b : 0 ≤ r3 / 365 - r3 / 365 / 4 ∧ r3 / 365 - r3 / 365 / 4 ≤ 3 := by omega
  have hr4b : 0 ≤ r3 - 365 * (r3 / 365 - r3 / 365 / 4) ∧
      r3 - 365 * (r3 / 365 - r3 / 365 / 4) < 366 ∧
      (365 ≤ r3 - 365 * (r3 / 365 - r3 / 365 / 4) →
        r3 / 365 - r3 / 365 / 4 = 3 ∧ r3 = 1460) := by omega
  generalize hn4 : r3 / 365 - r3 / 365 / 4 = n4 at hn4b hr4b
  generalize hr4 : r3 - 365 * n4 = r4 at hr4b
  refine ⟨D / 146097, n2, q3, n4, r4, hn2b.1, hn2b.2, hq3b.1, hq3b.2, hn4b.1, hn4b.2,
    hr4b.1, hr4b.2.1, ?_, by omega, ?_⟩
  · intro h
    have h1 := hr4b.2.2 h
    refine ⟨h1.1, ?_⟩
    by_contra hcon
    push_neg at hcon
    have := hr3b.2.2 hcon.1 hcon.2
    omega
  · simp only [absYear, daysPer400Years, daysPer100Years, daysPer4Years]
    norm_num only
    rw [hr1, hn2, hr2, hq3, hr3, hn4, hr4]

theorem absYear_spec (D : Int) :
    daysSinceEpoch (absYear D).1 + (absYear D).2 = D ∧ 0 ≤ (absYear D).2 ∧
      (absYear D).2 < (if isLeap (absYear D).1 then 366 else 365) := by
  obtain ⟨a, b, c, d, r, hb, hb3, hc, hc3, hd, hd3, hr, hr366, hl, hD, he⟩ := absYear_cycle D
  rw [he]
  simp only
  rw [daysSinceEpoch_cycle a b c d hb hb3 hc hc3 hd hd3, isLeap_cycle a b c d hb hb3 hc hc3 hd hd3]
  refine ⟨by omega, hr, ?_⟩
  split
  · exact hr366
  · rename_i h
    simp only [decide_eq_true_eq] at h
    by_contra hcon
    exact h (hl (by omega))

set_option maxRecDepth 100000 in
theorem monthDayOK_all : ∀ n : Nat, n < 366 → (monthDayOK true n = true) ∧ (n < 365 → monthDayOK false n = true) := by
  decide

/-! ## Theorems: the claims settled by evaluation -/

/-- C3: an all-digit text of eleven characters makes `ParseWithLocation` panic: the slice
`timeStr[11:len(timeStr)-1]` has its upper bound 10 below its lower bound 11. -/
theorem ParseWithLocation_eleven_digits_panics (fscale : Int → Nat → Int) (loc : Location) :
    ParseWithLocation fscale "12345678901".toList loc = Outcome.panic := by
  rfl

/-- C4: the eight-digit text `19680526` is decoded as the UNIX timestamp 19680526, not through
the layout `20060102`, although that layout alone parses it to 1968-05-26T00:00:00Z. -/
theorem ParseGetUTC_yyyymmdd_is_timestamp (fscale : Int → Nat → Int) :
    ParseGetUTC fscale "19680526".toList = Outcome.ret (some ⟨19680526, 0, UTC⟩, none) ∧
      "20060102" ∈ timeFormats ∧
      Parse "20060102".toList "19680526".toList = Except.ok (Date 1968 5 26 0 0 0 0 UTC) ∧
      Date 1968 5 26 0 0 0 0 UTC = ⟨-50544000, 0, UTC⟩ := by
  refine ⟨rfl, by decide, by decide, by decide⟩

/-- C8: for the instants `-2^62` s and `2^62` s the first is before the second, yet
`StartIsBeforeEnd` is false: the `int64` difference of the second counts wraps to `-2^63`. -/
theorem StartIsBeforeEnd_wraps :
    (Unix (-4611686018427387904) 0).Before (Unix 4611686018427387904 0) = true ∧
      wrap64 ((Unix 4611686018427387904 0).Unix - (Unix (-4611686018427387904) 0).Unix)
        = -9223372036854775808 ∧
      StartIsBeforeEnd (Unix (-4611686018427387904) 0) (Unix 4611686018427387904 0) = false := by
  decide

/-- C10: for the range 2021-01-01/2021-01-02 the second result of `TimesForDateRange` is
00:00:00 UTC of the end date itself, 2021-01-02, not of the following day 2021-01-03. -/
theorem TimesForDateRange_end_is_end_date :
    TimesForDateRange "2021-01-01".toList "2021-01-02".toList
        = (some (Date 2021 1 1 0 0 0 0 UTC), some (Date 2021 1 2 0 0 0 0 UTC), none) ∧
      Date 2021 1 2 0 0 0 0 UTC ≠ Date 2021 1 3 0 0 0 0 UTC := by
  refine ⟨?_, by decide⟩
  set_option maxRecDepth 100000 in decide

/-! ## Theorems: periods -/

/-- On a text of ASCII bytes `ToUpper` does not consult the rune mapping. -/
theorem ToUpper_ascii (f g : Char → Char) (s : GoString)
    (h : s.all (fun c => decide (c.toNat < 128)) = true) : ToUpper f s = ToUpper g s := by
  simp only [ToUpper, h, if_true]

theorem IsPeriod_of_parse (lib : PeriodLib) (upperRune : Char → Char) (text : GoString)
    (p : lib.Period) (h : lib.ParseWithNormalise (ToUpper upperRune text) = Except.ok p) :
    IsPeriod lib upperRune text = true := by
  simp [IsPeriod, h]

theorem parse_of_IsPeriod (lib : PeriodLib) (upperRune : Char → Char) (text : GoString)
    (h : IsPeriod lib upperRune text = true) :
    ∃ p, lib.ParseWithNormalise (ToUpper upperRune text) = Except.ok p := by
  unfold IsPeriod at h
  cases hp : lib.ParseWithNormalise (ToUpper upperRune text) with
  | ok p => exact ⟨p, rfl⟩
  | error e => rw [hp] at h; simp at h

/-- C6, as stated, fails: for the epoch and the negative period `-PT10M`, `PeriodSubtract`
returns the instant ten minutes before, while `PeriodAdd` of `PeriodPositive` of the text
returns the instant ten minutes after. -/
theorem PeriodSubtract_negative_moves_back :
    PeriodSubtract wholePeriodLib upperRuneLatin (Unix 0 0) "-PT10M".toList
        = (Unix (-600) 0, none) ∧
      (PeriodPositive wholePeriodLib upperRuneLatin "-PT10M".toList).1 = "PT10M".toList ∧
      PeriodAdd wholePeriodLib upperRuneLatin (Unix 0 0)
          (PeriodPositive wholePeriodLib upperRuneLatin "-PT10M".toList).1
        = (Unix 600 0, none) ∧
      PeriodSubtract wholePeriodLib upperRuneLatin (Unix 0 0) "-PT10M".toList
        ≠ PeriodAdd wholePeriodLib upperRuneLatin (Unix 0 0)
            (PeriodPositive wholePeriodLib upperRuneLatin "-PT10M".toList).1 := by
  set_option maxRecDepth 100000 in decide

/-- C6, amended: when the parsed period `p` of a valid text is negative, `PeriodSubtract`
returns, without error, `p` itself added to `t` (converted to UTC), so the magnitude of the
period is subtracted; for a `t` already in UTC that is the result of `PeriodAdd` on the
same text. The text is upper-cased with `strings.ToUpper` before it is parsed, whatever the
rune mapping `upperRune` of the library. -/
theorem PeriodSubtract_negative (lib : PeriodLib) (upperRune : Char → Char) (t : Time)
    (text : GoString) (p : lib.Period)
    (hp : lib.ParseWithNormalise (ToUpper upperRune text) = Except.ok p)
    (hneg : lib.IsNegative p = true) :
    PeriodSubtract lib upperRune t text = ((lib.AddTo p t).In UTC, none) ∧
      (t.loc = UTC → PeriodSubtract lib upperRune t text = PeriodAdd lib upperRune t text) := by
  have hi := IsPeriod_of_parse lib upperRune text p hp
  have h1 : PeriodSubtract lib upperRune t text = ((lib.AddTo p t).In UTC, none) := by
    simp [PeriodSubtract, hi, hp, hneg]
  refine ⟨h1, ?_⟩
  intro hloc
  have ht : t.In UTC = t := by
    cases t
    simp only [Time.In] at *
    simp [hloc]
  rw [h1]
  simp [PeriodAdd, hi, hp, ht]

theorem PeriodSubtract_negative_witness :
    PeriodSubtract wholePeriodLib upperRuneLatin (Unix 0 0) "-PT10M".toList
        = (Unix (-600) 0, none) ∧
      PeriodAdd wholePeriodLib upperRuneLatin (Unix 0 0) "-PT10M".toList
        = (Unix (-600) 0, none) ∧
      PeriodSubtract wholePeriodLib upperRuneLatin (Unix 0 0)
          ("-pt10".toList ++ [Char.ofNat 383])
        = (Unix (-10) 0, none) := by
  have h3 := (PeriodSubtract_negative wholePeriodLib upperRuneLatin (Unix 0 0)
    ("-pt10".toList ++ [Char.ofNat 383]) ⟨0, 0, 0, 0, 0, -10⟩ (by rfl) (by decide)).1
  have h := PeriodSubtract_negative wholePeriodLib upperRuneLatin (Unix 0 0) "-PT10M".toList
    ⟨0, 0, 0, 0, -10, 0⟩ (by rfl) (by decide)
  have e : (wholePeriodLib.AddTo (⟨0, 0, 0, 0, -10, 0⟩ : WholePeriod) (Unix 0 0)).In UTC
      = Unix (-600) 0 := by decide
  refine ⟨?_, ?_, h3.trans (by decide)⟩
  · rw [h.1]; rw [e]
  · rw [← h.2 (by decide), h.1, e]

/-- C7: for a text that `IsPeriod` accepts, with parsed period `p`, the three functions succeed:
`Period` returns the text of `p`, `PeriodPositive` the text of `p` or, when `p` is negative, of
its negation, `PeriodNegative` the text of `p` or, when `p` is positive, of its negation; so for
a positive (and not negative) `p`, `PeriodPositive` agrees with `Period` and `PeriodNegative`
gives the text of the negation. For a text that `IsPeriod` rejects all three return the empty
string with an error. The text is upper-cased with `strings.ToUpper` before it is parsed,
whatever the rune mapping `upperRune` of the library. -/
theorem Period_sign_forcing (lib : PeriodLib) (upperRune : Char → Char) (text : GoString) :
    (IsPeriod lib upperRune text = true →
      ∃ p, lib.ParseWithNormalise (ToUpper upperRune text) = Except.ok p ∧
        Period lib upperRune text = (lib.PString p, none) ∧
        PeriodPositive lib upperRune text
          = (lib.PString (if lib.IsNegative p then lib.Negate p else p), none) ∧
        PeriodNegative lib upperRune text
          = (lib.PString (if lib.IsPositive p then lib.Negate p else p), none) ∧
        (lib.IsPositive p = true → lib.IsNegative p = false →
          PeriodPositive lib upperRune text = Period lib upperRune text ∧
            PeriodNegative lib upperRune text = (lib.PString (lib.Negate p), none))) ∧
    (IsPeriod lib upperRune text = false →
      Period lib upperRune text = ([], some (.errorf "invalid period %s" text)) ∧
        PeriodPositive lib upperRune text = ([], some (.errorf "invalid period %s" text)) ∧
        PeriodNegative lib upperRune text = ([], some (.errorf "invalid period %s" text))) := by
  constructor
  · intro h
    obtain ⟨p, hp⟩ := parse_of_IsPeriod lib upperRune text h
    refine ⟨p, hp, ?_, ?_, ?_, ?_⟩
    · simp [Period, h, hp]
    · simp [PeriodPositive, h, hp]
    · simp [PeriodNegative, h, hp]
    · intro hpos hneg
      simp [Period, PeriodPositive, PeriodNegative, h, hp, hpos, hneg]
  · intro h
    exact ⟨by simp [Period, h], by simp [PeriodPositive, h], by simp [PeriodNegative, h]⟩

theorem Period_sign_forcing_witness :
    Period wholePeriodLib upperRuneLatin "PT10M".toList = ("PT10M".toList, none) ∧
      PeriodPositive wholePeriodLib upperRuneLatin "PT10M".toList = ("PT10M".toList, none) ∧
      PeriodNegative wholePeriodLib upperRuneLatin "PT10M".toList = ("-PT10M".toList, none) ∧
      (∃ e, Period wholePeriodLib upperRuneLatin "hello".toList = ([], some e)) ∧
      Period wholePeriodLib upperRuneLatin ("pt10".toList ++ [Char.ofNat 383])
        = ("PT10S".toList, none) ∧
      PeriodNegative wholePeriodLib upperRuneLatin ("pt10".toList ++ [Char.ofNat 383])
        = ("-PT10S".toList, none) := by
  obtain ⟨p, hp, h1, _, _, h4⟩ :=
    (Period_sign_forcing wholePeriodLib upperRuneLatin "PT10M".toList).1 (by decide)
  have hp2 : (Except.ok p : Except GoError WholePeriod) = Except.ok ⟨0, 0, 0, 0, 10, 0⟩ := by
    rw [← hp]; rfl
  have hp3 : p = (⟨0, 0, 0, 0, 10, 0⟩ : WholePeriod) := by injection hp2
  subst hp3
  have h5 := h4 (by decide) (by decide)
  have he := ((Period_sign_forcing wholePeriodLib upperRuneLatin "hello".toList).2 (by decide)).1
  refine ⟨?_, ?_, ?_, ⟨_, he⟩, ?_, ?_⟩
  · rw [h1]; decide
  · rw [h5.1, h1]; decide
  · rw [h5.2]; decide
  · set_option maxRecDepth 100000 in decide
  · set_option maxRecDepth 100000 in decide

/-! ## Theorems: the layout loop -/

theorem parseFormats_first (text : GoString) (loc : Location) (t : Time) (format : String)
    (post : List String) :
    ∀ pre : List String, (∀ f ∈ pre, (Parse f.toList text).toBool = false) →
      Parse format.toList text = Except.ok t →
      parseFormats (pre ++ format :: post) text loc = some (t.In loc) := by
  intro pre
  induction pre with
  | nil => intro _ h; simp only [List.nil_append, parseFormats, h]
  | cons f pre ih =>
    intro hpre h
    have hf := hpre f (List.mem_cons_self _ _)
    have ih2 := ih (fun g hg => hpre g (List.mem_cons_of_mem _ hg)) h
    cases hp : Parse f.toList text with
    | ok u => rw [hp] at hf; simp [Except.toBool] at hf
    | error e =>
      simp only [List.cons_append, parseFormats, hp]
      exact ih2

theorem parseFormats_none (text : GoString) (loc : Location) :
    ∀ fmts : List String, (∀ f ∈ fmts, (Parse f.toList text).toBool = false) →
      parseFormats fmts text loc = none := by
  intro fmts
  induction fmts with
  | nil => intro _; rfl
  | cons f fmts ih =>
    intro h
    have hf := h f (List.mem_cons_self _ _)
    cases hp : Parse f.toList text with
    | ok u => rw [hp] at hf; simp [Except.toBool] at hf
    | error e => simp only [parseFormats, hp, ih (fun g hg => h g (List.mem_cons_of_mem _ hg))]

/-- C1: for a text that is not a run of decimal digits, `ParseWithLocation` returns without
error the instant parsed by the first layout of `timeFormats`, in declared order, that parses
the text, converted to `loc`; and when no layout parses the text it returns the zero time with
the error `Could not parse time`. -/
theorem ParseWithLocation_first_layout (fscale : Int → Nat → Int) (text : GoString)
    (loc : Location) (hnd : matchDigits text = false) :
    (∀ (pre post : List String) (format : String) (t : Time),
        timeFormats = pre ++ format :: post →
        (∀ f ∈ pre, (Parse f.toList text).toBool = false) →
        Parse format.toList text = Except.ok t →
        ParseWithLocation fscale text loc = Outcome.ret (some (t.In loc), none)) ∧
      ((∀ f ∈ timeFormats, (Parse f.toList text).toBool = false) →
        ParseWithLocation fscale text loc
          = Outcome.ret (some zeroTime, some (GoError.errorsNew "Could not parse time"))) := by
  constructor
  · intro pre post format t hsplit hpre hok
    have h := parseFormats_first text loc t format post pre hpre hok
    rw [← hsplit] at h
    simp [ParseWithLocation, hnd, h]
  · intro hall
    have h := parseFormats_none text loc timeFormats hall
    simp [ParseWithLocation, hnd, h]

set_option maxRecDepth 100000 in
theorem ParseWithLocation_first_layout_witness :
    ParseWithLocation (fun _ _ => 0) "hello".toList UTC
        = Outcome.ret (some zeroTime, some (GoError.errorsNew "Could not parse time")) ∧
      ParseWithLocation (fun _ _ => 0) "1968-01-02T03:04:05Z".toList UTC
        = Outcome.ret (some ⟨-63060955, 0, UTC⟩, none) := by
  refine ⟨(ParseWithLocation_first_layout (fun _ _ => 0) "hello".toList UTC (by decide)).2
    (by decide), ?_⟩
  exact (ParseWithLocation_first_layout (fun _ _ => 0) "1968-01-02T03:04:05Z".toList UTC
    (by decide)).1 (timeFormats.take 13) (timeFormats.drop 14) "2006-01-02T15:04:05Z"
    ⟨-63060955, 0, UTC⟩ (by decide) (by decide) (by decide)

/-! ## Theorems: numeric timestamps -/

theorem isDigit_iff (c : Char) : isDigit c = true ↔ 48 ≤ c.toNat ∧ c.toNat ≤ 57 := by
  simp only [isDigit, Bool.and_eq_true, decide_eq_true_eq, Char.le_def]
  constructor
  · rintro ⟨h1, h2⟩
    exact ⟨h1, h2⟩
  · rintro ⟨h1, h2⟩
    exact ⟨h1, h2⟩

theorem digitVal_le (c : Char) (h : isDigit c = true) : digitVal c ≤ 9 := by
  rw [isDigit_iff] at h
  unfold digitVal
  omega

theorem isDigit_ne (c d : Char) (h : isDigit c = true) (hd : isDigit d = false) : c ≠ d := by
  intro e
  rw [e, hd] at h
  exact Bool.noConfusion h

theorem foldl_digits_lt (s : GoString) : ∀ n : Nat, s.all isDigit = true →
    s.foldl (fun n c => n * 10 + digitVal c) n < (n + 1) * 10 ^ s.length := by
  induction s with
  | nil => intro n _; simp
  | cons c cs ih =>
    intro n h
    simp only [List.all_cons, Bool.and_eq_true] at h
    have hc := digitVal_le c h.1
    have := ih (n * 10 + digitVal c) h.2
    simp only [List.foldl_cons, List.length_cons]
    calc List.foldl (fun n c => n * 10 + digitVal c) (n * 10 + digitVal c) cs
        < (n * 10 + digitVal c + 1) * 10 ^ cs.length := this
      _ ≤ ((n + 1) * 10) * 10 ^ cs.length := Nat.mul_le_mul_right _ (by omega)
      _ = (n + 1) * 10 ^ (cs.length + 1) := by ring

theorem decimalValue_lt (s : GoString) (h : s.all isDigit = true) :
    decimalValue s < 10 ^ s.length := by
  have := foldl_digits_lt s 0 h
  simpa [decimalValue] using this

theorem parseUintLoop_digits (s : GoString) : ∀ n : Nat, s.all isDigit = true →
    (n + 1) * 10 ^ s.length ≤ 2 ^ 64 →
    parseUintLoop s n = Except.ok (s.foldl (fun n c => n * 10 + digitVal c) n) := by
  induction s with
  | nil => intro n _ _; rfl
  | cons c cs ih =>
    intro n h hb
    simp only [List.all_cons, Bool.and_eq_true] at h
    have hc := digitVal_le c h.1
    simp only [List.length_cons] at hb
    have hpos : 0 < 10 ^ cs.length := Nat.pow_pos (by norm_num)
    have hb1 : (n + 1) * 10 ≤ 2 ^ 64 := by
      calc (n + 1) * 10 = (n + 1) * 10 * 1 := by ring
        _ ≤ (n + 1) * 10 * 10 ^ cs.length := Nat.mul_le_mul_left _ hpos
        _ = (n + 1) * 10 ^ (cs.length + 1) := by ring
        _ ≤ 2 ^ 64 := hb
    have hb2 : (n * 10 + digitVal c + 1) * 10 ^ cs.length ≤ 2 ^ 64 := by
      calc (n * 10 + digitVal c + 1) * 10 ^ cs.length
          ≤ ((n + 1) * 10) * 10 ^ cs.length := Nat.mul_le_mul_right _ (by omega)
        _ = (n + 1) * 10 ^ (cs.length + 1) := by ring
        _ ≤ 2 ^ 64 := hb
    have e1 : ¬ (n ≥ (2 ^ 64 - 1) / 10 + 1) := by norm_num at hb1 ⊢; omega
    have e2 : ¬ (n * 10 + digitVal c > 2 ^ 64 - 1) := by norm_num at hb1 ⊢; omega
    rw [parseUintLoop]
    simp only [h.1, Bool.not_true, Bool.false_eq_true, if_false, e1, e2, List.foldl_cons]
    exact ih _ h.2 hb2

theorem ParseInt_digits (s : GoString) (hne : s ≠ []) (h : s.all isDigit = true)
    (hlen : s.length ≤ 18) : ParseInt s = ((decimalValue s : Int), none) := by
  have hv := decimalValue_lt s h
  have hp : (10 : Nat) ^ s.length ≤ 10 ^ 18 := Nat.pow_le_pow_right (by norm_num) hlen
  have hu : ParseUint s = Except.ok (decimalValue s) := by
    unfold ParseUint
    have : s.isEmpty = false := by cases s <;> simp_all
    simp only [this, Bool.false_eq_true, if_false]
    rw [parseUintLoop_digits s 0 h (by norm_num at hp ⊢; omega)]
    rfl
  cases s with
  | nil => exact absurd rfl hne
  | cons c cs =>
    have hc : isDigit c = true := by
      simp only [List.all_cons, Bool.and_eq_true] at h
      exact h.1
    have h1 : (c == '+') = false := by
      rw [beq_eq_false_iff_ne]; exact isDigit_ne c '+' hc (by decide)
    have h2 : (c == '-') = false := by
      rw [beq_eq_false_iff_ne]; exact isDigit_ne c '-' hc (by decide)
    have hlt : ¬ (decimalValue (c :: cs) ≥ 2 ^ 63) := by norm_num at hp hv ⊢; omega
    simp only [ParseInt, h1, h2, Bool.or_self, Bool.false_eq_true, if_false, hu, Bool.not_false,
      Bool.true_and, decide_eq_true_eq, hlt, Bool.false_and]

theorem splitDot_digits (a : GoString) (h : a.all isDigit = true) : splitDot a = (a, none) := by
  induction a with
  | nil => rfl
  | cons c cs ih =>
    simp only [List.all_cons, Bool.and_eq_true] at h
    have h1 : (c == '.') = false := by
      rw [beq_eq_false_iff_ne]; exact isDigit_ne c '.' h.1 (by decide)
    simp only [splitDot, h1, Bool.false_eq_true, if_false, ih h.2]

theorem splitDot_digits_dot (a b : GoString) (h : a.all isDigit = true) :
    splitDot (a ++ '.' :: b) = (a, some b) := by
  induction a with
  | nil => simp [splitDot]
  | cons c cs ih =>
    simp only [List.all_cons, Bool.and_eq_true] at h
    have h1 : (c == '.') = false := by
      rw [beq_eq_false_iff_ne]; exact isDigit_ne c '.' h.1 (by decide)
    have ih2 := ih h.2
    simp only [List.cons_append, splitDot, h1, Bool.false_eq_true, if_false]
    rw [show cs.append ('.' :: b) = cs ++ '.' :: b from rfl, ih2]

theorem all_isDigit_take (s : GoString) (n : Nat) (h : s.all isDigit = true) :
    (s.take n).all isDigit = true := by
  rw [List.all_eq_true] at h ⊢
  intro c hc
  exact h c (List.mem_of_mem_take hc)

theorem all_isDigit_drop (s : GoString) (n : Nat) (h : s.all isDigit = true) :
    (s.drop n).all isDigit = true := by
  rw [List.all_eq_true] at h ⊢
  intro c hc
  exact h c (List.mem_of_mem_drop hc)

theorem matchDigits_iff (s : GoString) :
    matchDigits s = true ↔ s ≠ [] ∧ s.all isDigit = true := by
  cases s <;> simp [matchDigits]

/-- C2: for an all-digit text of length `L` (a text matching `^\d+$`), `ParseWithLocation`
returns without error an instant in `loc` whose seconds are the decimal value of the text and
whose nanoseconds are 0 when `L ≤ 10`, and whose seconds are the decimal value of the first
ten digits and whose nanoseconds are the decimal value of `text[11 .. L-1)` times
`10^(9 - (L - 12))` when `13 ≤ L ≤ 21`. -/
theorem ParseWithLocation_timestamp (fscale : Int → Nat → Int) (text : GoString)
    (loc : Location) (hd : matchDigits text = true) :
    (text.length ≤ 10 →
      ParseWithLocation fscale text loc
        = Outcome.ret (some ⟨(decimalValue text : Int), 0, loc⟩, none)) ∧
    (13 ≤ text.length → text.length ≤ 21 →
      ParseWithLocation fscale text loc
        = Outcome.ret (some ⟨(decimalValue (text.take 10) : Int),
            (decimalValue ((text.drop 11).take (text.length - 12)) : Int)
              * 10 ^ (9 - (text.length - 12)), loc⟩, none)) := by
  obtain ⟨hne, hall⟩ := (matchDigits_iff text).1 hd
  constructor
  · intro hlen
    have h10 : ¬ text.length > 10 := by omega
    have hp := ParseInt_digits text hne hall (by omega)
    simp only [ParseWithLocation, hd, if_true, h10, if_false, parseTimestamp,
      splitDot_digits text hall, hp, Unix]
    norm_num [Time.In]
  · intro h13 h21
    have h10 : text.length > 10 := by omega
    have hs1 : slice text 0 10 = some (text.take 10) := by
      simp only [slice]
      rw [if_pos (by omega)]
      simp
    have hs2 : slice text 11 ((text.length : Int) - 1)
        = some ((text.drop 11).take (text.length - 12)) := by
      simp only [slice]
      rw [if_pos (by omega)]
      have : ((text.length : Int) - 1).toNat - (11 : Int).toNat = text.length - 12 := by omega
      rw [this]
      rfl
    have ha := all_isDigit_take text 10 hall
    have hm := all_isDigit_take (text.drop 11) (text.length - 12) (all_isDigit_drop text 11 hall)
    have hml : ((text.drop 11).take (text.length - 12)).length = text.length - 12 := by
      simp only [List.length_take, List.length_drop]
      omega
    have hal : (text.take 10).length = 10 := by
      simp only [List.length_take]
      omega
    have hpa := ParseInt_digits (text.take 10) (by intro e; rw [e] at hal; simp at hal) ha
      (by omega)
    have hpm := ParseInt_digits ((text.drop 11).take (text.length - 12))
      (by intro e; rw [e] at hml; simp at hml; omega) hm (by omega)
    have hv := decimalValue_lt _ hm
    rw [hml] at hv
    have hk : text.length - 12 ≤ 9 := by omega
    have hprod : decimalValue ((text.drop 11).take (text.length - 12))
        * 10 ^ (9 - (text.length - 12)) < 10 ^ 9 := by
      calc decimalValue ((text.drop 11).take (text.length - 12)) * 10 ^ (9 - (text.length - 12))
          < 10 ^ (text.length - 12) * 10 ^ (9 - (text.length - 12)) :=
            Nat.mul_lt_mul_of_pos_right hv (Nat.pow_pos (by norm_num))
        _ = 10 ^ 9 := by rw [← pow_add]; congr 1; omega
    have hprodZ : (decimalValue ((text.drop 11).take (text.length - 12)) : Int)
        * 10 ^ (9 - (text.length - 12)) < 1000000000 := by
      have := Int.ofNat_lt.2 hprod
      push_cast at this
      exact this
    have hnn : (0 : Int) ≤ (decimalValue ((text.drop 11).take (text.length - 12)) : Int)
        * 10 ^ (9 - (text.length - 12)) := by positivity
    have hU : Unix (decimalValue (text.take 10) : Int)
        ((decimalValue ((text.drop 11).take (text.length - 12)) : Int)
          * 10 ^ (9 - (text.length - 12)))
        = ⟨(decimalValue (text.take 10) : Int),
            (decimalValue ((text.drop 11).take (text.length - 12)) : Int)
              * 10 ^ (9 - (text.length - 12)), UTC⟩ := by
      unfold Unix
      rw [if_neg (by omega)]
    simp only [ParseWithLocation, hd, if_true, h10, hs1, hs2, parseTimestamp, List.append_assoc,
      List.singleton_append, splitDot_digits_dot _ _ ha, hpa, hpm, scaleNanos, hml, hk, hU]
    simp [Time.In]

theorem ParseWithLocation_timestamp_witness :
    ParseWithLocation (fun _ _ => 0) "1611726543".toList UTC
        = Outcome.ret (some ⟨1611726543, 0, UTC⟩, none) ∧
      ParseWithLocation (fun _ _ => 0) "1611726543379050000".toList UTC
        = Outcome.ret (some ⟨1611726543, 790500000, UTC⟩, none) :=
  ⟨(ParseWithLocation_timestamp (fun _ _ => 0) "1611726543".toList UTC (by decide)).1
      (by decide),
    (ParseWithLocation_timestamp (fun _ _ => 0) "1611726543379050000".toList UTC (by decide)).2
      (by decide) (by decide)⟩

/-! ## Theorems: civil dates and the date range -/

theorem norm_id (hi lo base : Int) (h0 : 0 ≤ lo) (h1 : lo < base) : norm hi lo base = (hi, lo) := by
  have h2 : ¬ lo < 0 := by omega
  have h3 : ¬ lo ≥ base := by omega
  simp only [norm, h2, if_false, h3]

/-- The second count of `Date` on fields that are already in range. -/
theorem Date_normal (y m d h mi s ns : Int) (loc : Location) (hm1 : 1 ≤ m) (hm12 : m ≤ 12)
    (hh0 : 0 ≤ h) (hh : h < 24) (hmi0 : 0 ≤ mi) (hmi : mi < 60) (hs0 : 0 ≤ s) (hs : s < 60)
    (hns0 : 0 ≤ ns) (hns : ns < 1000000000) :
    Date y m d h mi s ns loc
      = ⟨(daysSinceEpoch y + daysBeforeAt (m - 1) + (if isLeap y && decide (m ≥ 3) then 1 else 0)
            + (d - 1)) * 86400 + (h * 3600 + mi * 60 + s)
          - 9223372028715321600 - loc.offset, ns, loc⟩ := by
  unfold Date
  simp only [norm_id y (m - 1) 12 (by omega) (by omega), norm_id s ns 1000000000 hns0 hns,
    norm_id mi s 60 hs0 hs, norm_id h mi 60 hmi0 hmi, norm_id d h 24 hh0 hh,
    secondsPerDay, secondsPerHour, secondsPerMinute, absoluteToInternal, internalToUnix,
    unixToInternal, absoluteZeroYear]
  have e : m - 1 + 1 = m := by omega
  rw [e]
  norm_num
  split <;> omega

theorem monthDay_spec (leap : Bool) (yd : Int) (h0 : 0 ≤ yd)
    (h1 : yd < (if leap then 366 else 365)) : monthDayOK leap yd = true := by
  obtain ⟨n, rfl⟩ := Int.eq_ofNat_of_zero_le h0
  cases leap with
  | true =>
    simp only [if_true] at h1
    exact (monthDayOK_all n (by omega)).1
  | false =>
    simp only [Bool.false_eq_true, if_false] at h1
    exact (monthDayOK_all n (by omega)).2 (by omega)

/-- The civil date computed by `absDate` has a month in 1..12, a day valid for that month, and
designates the day `abs / 86400`. -/
theorem absDate_spec (abs : Int) :
    1 ≤ (absDate abs).month ∧ (absDate abs).month ≤ 12 ∧ 1 ≤ (absDate abs).day ∧
      (absDate abs).day ≤ 31 ∧
      (absDate abs).day ≤ daysIn (absDate abs).month (absDate abs).year ∧
      daysSinceEpoch (absDate abs).year + daysBeforeAt ((absDate abs).month - 1)
        + (if isLeap (absDate abs).year && decide ((absDate abs).month ≥ 3) then 1 else 0)
        + ((absDate abs).day - 1) = abs / 86400 := by
  obtain ⟨hy, hyd0, hyd1⟩ := absYear_spec (abs / 86400)
  have hmd := monthDay_spec (isLeap (absYear (abs / 86400)).1) (absYear (abs / 86400)).2 hyd0
    (by cases h : isLeap (absYear (abs / 86400)).1 <;> simp [h] at hyd1 ⊢ <;> exact hyd1)
  simp only [monthDayOK, Bool.and_eq_true, decide_eq_true_eq] at hmd
  obtain ⟨⟨⟨⟨⟨a1, a2⟩, a3⟩, a4⟩, a5⟩, a6⟩ := hmd
  simp only [absDate, secondsPerDay, daysIn]
  refine ⟨a1, a2, a3, a4, ?_, ?_⟩
  · convert a5 using 2
    cases isLeap (absYear (abs / 86400)).1 <;> simp
  · simp only [Bool.and_eq_true, decide_eq_true_eq]
    linarith [a6, hy]

theorem absClock_spec (abs : Int) :
    0 ≤ (absClock abs).1 ∧ (absClock abs).1 < 24 ∧ 0 ≤ (absClock abs).2.1 ∧
      (absClock abs).2.1 < 60 ∧ 0 ≤ (absClock abs).2.2 ∧ (absClock abs).2.2 < 60 ∧
      (absClock abs).1 * 3600 + (absClock abs).2.1 * 60 + (absClock abs).2.2 = abs % 86400 := by
  simp only [absClock, secondsPerDay, secondsPerHour, secondsPerMinute]
  omega

theorem abs_UTC (t : Time) (h : t.loc = UTC) : t.abs = t.sec + 9223372028715321600 := by
  simp only [Time.abs, h, UTC, unixToInternal, internalToAbsolute, absoluteToInternal,
    absoluteZeroYear]
  norm_num

/-- Rebuilding a time from the civil date of an absolute time `abs`, with the day of the month
shifted by `k` and an in-range time of day. -/
theorem Date_absDate (abs k h mi s ns : Int) (hh0 : 0 ≤ h) (hh : h < 24) (hmi0 : 0 ≤ mi)
    (hmi : mi < 60) (hs0 : 0 ≤ s) (hs : s < 60) (hns0 : 0 ≤ ns) (hns : ns < 1000000000) :
    Date (absDate abs).year (absDate abs).month ((absDate abs).day + k) h mi s ns UTC
      = ⟨(abs / 86400 + k) * 86400 + (h * 3600 + mi * 60 + s) - 9223372028715321600, ns, UTC⟩ := by
  obtain ⟨a1, a2, _, _, _, a6⟩ := absDate_spec abs
  rw [Date_normal _ _ _ _ _ _ _ _ a1 a2 hh0 hh hmi0 hmi hs0 hs hns0 hns]
  congr 1
  simp only [UTC]
  linarith [a6]

theorem DateZeroTime_eq (t : Time) : DateZeroTime t = midnightUTC (utcDay t) := by
  simp only [DateZeroTime, Time.Date]
  have h := Date_absDate (t.In UTC).abs 0 0 0 0 0 (by norm_num) (by norm_num) (by norm_num)
    (by norm_num) (by norm_num) (by norm_num) (by norm_num) (by norm_num)
  rw [add_zero] at h
  rw [h, abs_UTC _ rfl]
  simp only [midnightUTC, utcDay, Time.In]
  congr 1
  omega

theorem RangeDate_eq (start stop : Time) :
    RangeDate start stop = ⟨midnightUTC (utcDay start), midnightUTC (utcDay stop)⟩ := by
  have h1 := DateZeroTime_eq start
  have h2 := DateZeroTime_eq stop
  simp only [DateZeroTime] at h1 h2
  simp only [RangeDate, h1, h2]

theorem AddDate_midnight (a : Int) : (midnightUTC a).AddDate 0 0 1 = midnightUTC (a + 1) := by
  have habs : (midnightUTC a).abs = a * 86400 + 9223372028715321600 := abs_UTC _ rfl
  obtain ⟨c1, c2, c3, c4, c5, c6, c7⟩ := absClock_spec (a * 86400 + 9223372028715321600)
  have hz : (a * 86400 + 9223372028715321600) % 86400 = 0 := by omega
  rw [hz] at c7
  have e1 : (absClock (a * 86400 + 9223372028715321600)).1 = 0 := by omega
  have e2 : (absClock (a * 86400 + 9223372028715321600)).2.1 = 0 := by omega
  have e3 : (absClock (a * 86400 + 9223372028715321600)).2.2 = 0 := by omega
  simp only [Time.AddDate, Time.Date, Time.Clock, habs, e1, e2, e3, add_zero]
  have h := Date_absDate (a * 86400 + 9223372028715321600) 1 0 0 0 0 (by norm_num)
    (by norm_num) (by norm_num) (by norm_num) (by norm_num) (by norm_num) (by norm_num)
    (by norm_num)
  simp only [midnightUTC] at h ⊢
  rw [h]
  congr 1
  omega

theorem call_midnight (a b : Int) :
    (RangeState.call ⟨midnightUTC a, midnightUTC b⟩)
      = if a ≤ b then (midnightUTC a, ⟨midnightUTC (a + 1), midnightUTC b⟩)
        else (zeroTime, ⟨midnightUTC a, midnightUTC b⟩) := by
  simp only [RangeState.call, AddDate_midnight]
  by_cases h : a ≤ b
  · have : (midnightUTC a).After (midnightUTC b) = false := by
      simp only [Time.After, midnightUTC]
      simp
      omega
    simp [this, h]
  · have : (midnightUTC a).After (midnightUTC b) = true := by
      simp only [Time.After, midnightUTC]
      simp
      omega
    simp [this, h]

theorem calls_midnight (b : Int) : ∀ (n : Nat) (a : Int),
    RangeState.calls n ⟨midnightUTC a, midnightUTC b⟩
      = (List.range n).map fun k : Nat =>
          if a + k ≤ b then midnightUTC (a + k) else zeroTime := by
  intro n
  induction n with
  | zero => intro a; rfl
  | succ n ih =>
    intro a
    rw [RangeState.calls, call_midnight, List.range_succ_eq_map, List.map_cons, List.map_map]
    by_cases h : a ≤ b
    · simp only [h, if_true, ih]
      congr 1
      · simp [h]
      · apply List.map_congr_left
        intro k _
        simp only [Function.comp, Nat.cast_succ]
        have e : a + 1 + (k : Int) = a + ((k : Int) + 1) := by ring
        rw [e]
    · simp only [h, if_false]
      congr 1
      · simp [h]
      · rw [ih]
        apply List.map_congr_left
        intro k _
        have h1 : ¬ a + (k : Int) ≤ b := by omega
        have h2 : ¬ a + ((k + 1 : Nat) : Int) ≤ b := by push_cast; omega
        simp only [Function.comp, Nat.succ_eq_add_one, h1, h2, if_false]

/-- C9, as stated, fails: `start` one second after `stop` on the same UTC day is after `stop`,
yet the first call of the range function yields that day, not the zero time. -/
theorem RangeDate_start_after_stop_same_day :
    (Unix 1 0).After (Unix 0 0) = true ∧
      ((RangeDate (Unix 1 0) (Unix 0 0)).call).1 = midnightUTC 0 ∧
      midnightUTC 0 ≠ zeroTime := by
  decide

/-- C9, amended: for `start` and `stop` whose second counts lie between -9223372028715321600
and 9223371974719092607, the range in which the unsigned seconds of `abs` and the signed
internal seconds of the time package do not wrap, with `ds` and `de` the UTC days of `start`
and `stop`, the first `n` calls of the function returned by `RangeDate start stop` yield, for
`k = 0, 1, ...`, the instant 00:00:00 UTC of day `ds + k` while `ds + k ≤ de` and the zero
time afterwards; so the days `ds .. de` come in ascending order, `max 0 (de - ds + 1)` of
them, the first call yields the zero time when `ds` is after `de`, and exactly one date comes
before the zero time when `start = stop`. Every instant that the function holds or yields,
day `ds` and the days up to `de + 1`, stays within the seconds that `abs` and the internal
seconds represent. -/
theorem RangeDate_calls (start stop : Time) (n : Nat)
    (hs1 : -9223372028715321600 ≤ start.sec) (hs2 : start.sec ≤ 9223371974719092607)
    (he1 : -9223372028715321600 ≤ stop.sec) (he2 : stop.sec ≤ 9223371974719092607) :
    (RangeDate start stop).calls n
        = (List.range n).map (fun k : Nat =>
            if utcDay start + k ≤ utcDay stop then midnightUTC (utcDay start + k) else zeroTime) ∧
      (utcDay stop < utcDay start → ((RangeDate start stop).call).1 = zeroTime) ∧
      (start = stop →
        (RangeDate start stop).calls 2 = [midnightUTC (utcDay start), zeroTime]) ∧
      (∀ k : Nat, k = 0 ∨ utcDay start + k ≤ utcDay stop + 1 →
        0 ≤ (midnightUTC (utcDay start + k)).abs ∧
          (midnightUTC (utcDay start + k)).abs < 2 ^ 64 ∧
          -2 ^ 63 ≤ (midnightUTC (utcDay start + k)).sec + unixToInternal ∧
          (midnightUTC (utcDay start + k)).sec + unixToInternal < 2 ^ 63) := by
  refine ⟨?_, ?_, ?_, ?_⟩
  · rw [RangeDate_eq, calls_midnight]
  · intro h
    rw [RangeDate_eq, call_midnight, if_neg (by omega)]
  · intro h
    subst h
    rw [RangeDate_eq, calls_midnight]
    simp [List.range_succ]
  · intro k hk
    rw [abs_UTC _ rfl]
    have hu : unixToInternal = 62135596800 := by decide
    rw [hu]
    simp only [midnightUTC, utcDay] at hk ⊢
    norm_num
    omega

/-! ## Theorems: formatting and parsing of digits -/

theorem parseLoop_eq_parseChunks : ∀ (fuel : Nat) (layout value : GoString) (f : Fields),
    parseLoop fuel layout value f = parseChunks (layoutChunks fuel layout) value f := by
  intro fuel
  induction fuel with
  | zero => intro _ _ _; rfl
  | succ n ih =>
    intro layout value f
    simp only [parseLoop, layoutChunks]
    cases hs : (nextStdChunk layout).2.1 with
    | none =>
      simp only [parseChunks, hs]
    | some std =>
      simp only [parseChunks, hs, ih]

theorem formatLoop_eq_formatChunks : ∀ (fuel : Nat) (t : Time) (layout b : GoString),
    formatLoop fuel t layout b = formatChunks (layoutChunks fuel layout) t b := by
  intro fuel
  induction fuel with
  | zero => intro _ _ _; rfl
  | succ n ih =>
    intro t layout b
    simp only [formatLoop, layoutChunks]
    cases layout with
    | nil => simp [nextStdChunk, formatChunks]
    | cons c cs =>
      simp only [List.isEmpty_cons, Bool.false_eq_true, if_false]
      cases hs : (nextStdChunk (c :: cs)).2.1 with
      | none => simp only [formatChunks, hs]
      | some std => simp only [formatChunks, hs, ih]

theorem digitChar_mod_toNat (x : Nat) : (digitChar (x % 10)).toNat = 48 + x % 10 := by
  have h : x % 10 < 10 := Nat.mod_lt _ (by norm_num)
  generalize x % 10 = k at h
  interval_cases k <;> rfl

theorem isDigit_digitChar (x : Nat) : isDigit (digitChar (x % 10)) = true := by
  rw [isDigit_iff, digitChar_mod_toNat]
  have h : x % 10 < 10 := Nat.mod_lt _ (by norm_num)
  omega

theorem digitVal_digitChar (x : Nat) : digitVal (digitChar (x % 10)) = x % 10 := by
  simp only [digitVal, digitChar_mod_toNat]
  omega

theorem digitChar_ne (x : Nat) (c : Char) (hc : isDigit c = false) : digitChar (x % 10) ≠ c :=
  isDigit_ne _ _ (isDigit_digitChar x) hc

theorem digitChar_beq (x : Nat) (c : Char) (hc : isDigit c = false) :
    (digitChar (x % 10) == c) = false := by
  rw [beq_eq_false_iff_ne]; exact digitChar_ne x c hc

theorem digitChar_bne (x : Nat) (c : Char) (hc : isDigit c = false) :
    (digitChar (x % 10) != c) = true := by
  rw [bne_iff_ne]; exact digitChar_ne x c hc

theorem decDigits_acc : ∀ (fuel u : Nat) (acc : GoString),
    decDigits fuel u acc = decDigits fuel u [] ++ acc := by
  intro fuel
  induction fuel with
  | zero => intro u acc; rfl
  | succ n ih =>
    intro u acc
    simp only [decDigits]
    split
    · rw [ih (u / 10) (digitChar (u % 10) :: acc), ih (u / 10) [digitChar (u % 10)]]
      simp
    · rfl

theorem padDigits_zero : ∀ w : Nat, padDigits w 0 = List.replicate w '0' := by
  intro w
  induction w with
  | zero => rfl
  | succ n ih =>
    simp only [padDigits, Nat.zero_div, ih, Nat.zero_mod]
    rw [List.replicate_succ']
    rfl

theorem padDigits_length : ∀ w n : Nat, (padDigits w n).length = w := by
  intro w
  induction w with
  | zero => intro n; rfl
  | succ k ih => intro n; simp [padDigits, ih]

theorem decDigits_pad : ∀ (w fuel u : Nat), 1 ≤ w → w ≤ fuel → u < 10 ^ w →
    List.replicate (w - (decDigits fuel u []).length) '0' ++ decDigits fuel u []
      = padDigits w u := by
  intro w
  induction w with
  | zero => intro fuel u h; omega
  | succ w ih =>
    intro fuel u _ hf hu
    obtain ⟨f, rfl⟩ : ∃ f, fuel = f + 1 := ⟨fuel - 1, by omega⟩
    by_cases h10 : u ≥ 10
    · have hw : 1 ≤ w := by
        by_contra hc
        have : w = 0 := by omega
        subst this
        simp at hu
        omega
      have hu2 : u / 10 < 10 ^ w := by
        rw [Nat.div_lt_iff_lt_mul (by norm_num)]
        rw [pow_succ] at hu
        exact hu
      have := ih f (u / 10) hw (by omega) hu2
      simp only [decDigits, h10, if_true, padDigits]
      rw [decDigits_acc, ← this]
      simp
    · have hlt : u < 10 := by omega
      simp only [decDigits, h10, if_false, padDigits, List.length_singleton]
      have e1 : u / 10 = 0 := by omega
      have e2 : u % 10 = u := by omega
      rw [e1, e2, padDigits_zero]
      simp

theorem appendInt_pad (b : GoString) (n w : Nat) (hw1 : 1 ≤ w) (hw : w ≤ 20) (hn : n < 10 ^ w) :
    appendInt b (n : Int) w = b ++ padDigits w n := by
  simp only [appendInt, Int.natAbs_ofNat]
  have h0 : ¬ ((n : Int) < 0) := by omega
  simp only [h0, if_false, List.append_assoc]
  rw [decDigits_pad w 20 n hw1 hw hn]

theorem appendNano_msec (b : GoString) (n : Nat) (hn : n < 10 ^ 9) :
    appendNano b (n : Int) 3 '.' false = b ++ '.' :: padDigits 3 (n / 1000000) := by
  simp only [appendNano, Bool.false_and, Bool.false_eq_true, if_false]
  rw [appendInt_pad _ n 9 (by norm_num) (by norm_num) hn]
  simp only [show (3 : Nat) < 9 from by norm_num, if_true, List.length_append,
    List.length_singleton, padDigits_length]
  have e : b.length + 1 + 9 - 9 + 3 = (b ++ ['.']).length + 3 := by simp
  rw [e, List.take_append]
  simp [padDigits, Nat.div_div_eq_div_mul]

theorem padDigits_two (n : Nat) :
    padDigits 2 n = [digitChar (n / 10 % 10), digitChar (n % 10)] := by
  simp [padDigits]

theorem padDigits_three (n : Nat) :
    padDigits 3 n = [digitChar (n / 100 % 10), digitChar (n / 10 % 10), digitChar (n % 10)] := by
  simp [padDigits, Nat.div_div_eq_div_mul]

theorem padDigits_four (n : Nat) :
    padDigits 4 n = [digitChar (n / 1000 % 10), digitChar (n / 100 % 10),
      digitChar (n / 10 % 10), digitChar (n % 10)] := by
  simp [padDigits, Nat.div_div_eq_div_mul]

theorem getnum_pad2 (n : Nat) (hn : n < 100) (rest : GoString) (fixed : Bool) :
    getnum (padDigits 2 n ++ rest) fixed = some ((n : Int), rest) := by
  simp only [padDigits_two, List.cons_append, List.nil_append, getnum, isDigit_digitChar,
    headIsDigit, Bool.not_true, Bool.false_eq_true, if_false, digitVal_digitChar]
  congr 2
  omega

theorem leadingInt_one (x acc : Nat) (rest : GoString) (h : acc < 100000000) :
    leadingInt (digitChar (x % 10) :: rest) acc = leadingInt rest (acc * 10 + x % 10) := by
  have hx : x % 10 < 10 := Nat.mod_lt _ (by norm_num)
  rw [leadingInt]
  simp only [isDigit_digitChar, Bool.not_true, Bool.false_eq_true, if_false, digitVal_digitChar]
  rw [if_neg (by norm_num; omega), if_neg (by norm_num; omega)]

theorem atoi_digit_head (x : Nat) (rest : GoString) :
    atoi (digitChar (x % 10) :: rest)
      = match leadingInt (digitChar (x % 10) :: rest) 0 with
        | none => none
        | some (q, rem) => if !rem.isEmpty then none else some (q : Int) := by
  simp only [atoi, digitChar_beq x '-' (by decide), digitChar_beq x '+' (by decide),
    Bool.or_self, Bool.false_eq_true, if_false]

theorem atoi_pad4 (n : Nat) (hn : n < 10000) : atoi (padDigits 4 n) = some (n : Int) := by
  rw [padDigits_four, atoi_digit_head, leadingInt_one _ _ _ (by norm_num),
    leadingInt_one _ _ _ (by omega), leadingInt_one _ _ _ (by omega),
    leadingInt_one _ _ _ (by omega)]
  simp only [leadingInt, List.isEmpty_nil, Bool.not_true, Bool.false_eq_true, if_false]
  congr 2
  omega

theorem atoi_pad3 (n : Nat) (hn : n < 1000) : atoi (padDigits 3 n) = some (n : Int) := by
  rw [padDigits_three, atoi_digit_head, leadingInt_one _ _ _ (by norm_num),
    leadingInt_one _ _ _ (by omega), leadingInt_one _ _ _ (by omega)]
  simp only [leadingInt, List.isEmpty_nil, Bool.not_true, Bool.false_eq_true, if_false]
  congr 2
  omega

theorem parseStd_longYear (n : Nat) (hn : n < 10000) (layout rest : GoString) (f : Fields) :
    parseStd .stdLongYear layout (padDigits 4 n ++ rest) f
      = Except.ok (rest, { f with year := (n : Int) }) := by
  have h1 : (padDigits 4 n ++ rest).take 4 = padDigits 4 n := by
    rw [List.take_append_of_le_length (by simp [padDigits_length])]
    exact List.take_of_length_le (by simp [padDigits_length])
  have h2 : (padDigits 4 n ++ rest).drop 4 = rest := by
    rw [List.drop_append_of_le_length (by simp [padDigits_length])]
    simp [List.drop_of_length_le, padDigits_length]
  have h3 : ¬ (padDigits 4 n ++ rest).length < 4 := by
    simp [padDigits_length]
  have h4 : headIsDigit (padDigits 4 n ++ rest) = true := by
    simp [padDigits_four, headIsDigit, isDigit_digitChar]
  simp only [parseStd, h1, h2, h3, h4, atoi_pad4 n hn, decide_False, Bool.not_true, Bool.or_self,
    Bool.false_eq_true, if_false]

theorem parseStd_zeroMonth (n : Nat) (h1 : 1 ≤ n) (h12 : n ≤ 12) (layout rest : GoString)
    (f : Fields) :
    parseStd .stdZeroMonth layout (padDigits 2 n ++ rest) f
      = Except.ok (rest, { f with month := (n : Int) }) := by
  have e : ¬ ((n : Int) ≤ 0 ∨ 12 < (n : Int)) := by omega
  simp [parseStd, getnum_pad2 n (by omega), e]
  omega

theorem parseStd_zeroDay (n : Nat) (hn : n < 100) (layout rest : GoString) (f : Fields) :
    parseStd .stdZeroDay layout (padDigits 2 n ++ rest) f
      = Except.ok (rest, { f with day := (n : Int) }) := by
  simp [parseStd, getnum_pad2 n hn]

theorem parseStd_hour (n : Nat) (hn : n < 24) (layout rest : GoString) (f : Fields) :
    parseStd .stdHour layout (padDigits 2 n ++ rest) f
      = Except.ok (rest, { f with hour := (n : Int) }) := by
  have e : ¬ ((n : Int) < 0 ∨ 24 ≤ (n : Int)) := by omega
  simp [parseStd, getnum_pad2 n (by omega), e]
  omega

theorem parseStd_zeroMinute (n : Nat) (hn : n < 60) (layout rest : GoString) (f : Fields) :
    parseStd .stdZeroMinute layout (padDigits 2 n ++ rest) f
      = Except.ok (rest, { f with min := (n : Int) }) := by
  have e : ¬ ((n : Int) < 0 ∨ 60 ≤ (n : Int)) := by omega
  simp [parseStd, getnum_pad2 n (by omega), e]
  omega

/-- Seconds followed by text that does not start a fractional second. -/
theorem parseStd_zeroSecond_plain (n : Nat) (hn : n < 60) (layout : GoString) (c : Char)
    (rest : GoString) (hc : commaOrPeriod c = false) (f : Fields) :
    parseStd .stdZeroSecond layout (padDigits 2 n ++ c :: rest) f
      = Except.ok (c :: rest, { f with sec := (n : Int) }) := by
  have e : ¬ ((n : Int) < 0 ∨ 60 ≤ (n : Int)) := by omega
  cases rest with
  | nil => simp [parseStd, parseSecond, getnum_pad2 n (by omega), e, hn]
  | cons d ds => simp [parseStd, parseSecond, getnum_pad2 n (by omega), e, hc, hn]

/-- Seconds followed by a three-digit fraction that the layout does not announce: the
fraction is consumed with the seconds. -/
theorem parseStd_zeroSecond_frac (n m : Nat) (hn : n < 60) (hm : m < 1000) (layout : GoString)
    (c : Char) (rest : GoString) (hc : isDigit c = false) (f : Fields)
    (hl : ∀ k s, (nextStdChunk layout).2.1 ≠ some (.stdFracSecond0 k s) ∧
      (nextStdChunk layout).2.1 ≠ some (.stdFracSecond9 k s)) :
    parseStd .stdZeroSecond layout (padDigits 2 n ++ '.' :: (padDigits 3 m ++ c :: rest)) f
      = Except.ok (c :: rest, { f with sec := (n : Int), nsec := (m : Int) * 1000000 }) := by
  have e : ¬ ((n : Int) < 0 ∨ 60 ≤ (n : Int)) := by omega
  have hn4 : parseNanoseconds ('.' :: (padDigits 3 m ++ c :: rest)) 4
      = Except.ok ((m : Int) * 1000000) := by
    have ht : (('.' :: (padDigits 3 m ++ c :: rest)).take 4).drop 1 = padDigits 3 m := by
      simp [padDigits_three]
    simp only [parseNanoseconds, commaOrPeriod, beq_self_eq_true, Bool.true_or, Bool.not_true,
      Bool.false_eq_true, if_false, show ¬ (4 : Nat) > 10 from by norm_num, ht, atoi_pad3 m hm]
    rw [if_neg (by omega)]
    norm_num
  have htw : ((('.' :: (padDigits 3 m ++ c :: rest)).drop 2).takeWhile isDigit).length = 2 := by
    simp [padDigits_three, List.takeWhile, isDigit_digitChar, hc]
  have hdrop : ('.' :: (padDigits 3 m ++ c :: rest)).drop 4 = c :: rest := by
    simp [padDigits_three]
  have e2 : (decide ((n : Int) < 0) || decide (60 ≤ (n : Int))) = false := by
    simp only [Bool.or_eq_false_iff, decide_eq_false_iff_not]
    omega
  simp only [parseStd, parseSecond, getnum_pad2 n (by omega), e2]
  rw [padDigits_three] at *
  simp only [List.cons_append, List.nil_append] at *
  simp only [commaOrPeriod, beq_self_eq_true, Bool.true_or, isDigit_digitChar, Bool.and_self,
    if_true, Bool.or_self, decide_False, Bool.false_eq_true, if_false]
  cases hch : (nextStdChunk layout).2.1 with
  | none => simp only [htw, hn4, hdrop]
  | some std =>
    cases std <;> first
      | (exfalso; exact (hl _ _).1 hch)
      | (exfalso; exact (hl _ _).2 hch)
      | simp only [htw, hn4, hdrop]

theorem appendInt_int (b : GoString) (x : Int) (w : Nat) (hw1 : 1 ≤ w) (hw : w ≤ 20)
    (h0 : 0 ≤ x) (hx : x < 10 ^ w) : appendInt b x w = b ++ padDigits w x.toNat := by
  obtain ⟨n, rfl⟩ := Int.eq_ofNat_of_zero_le h0
  have : n < 10 ^ w := by exact_mod_cast hx
  rw [appendInt_pad b n w hw1 hw this]
  simp

theorem appendZone_numTZ (b : GoString) : appendZone b 0 .stdNumTZ = b ++ ['+', '0', '0', '0', '0'] := by
  have h : appendInt (b ++ ['+']) (0 : Int) 2 = b ++ ['+'] ++ padDigits 2 0 :=
    appendInt_pad _ 0 2 (by norm_num) (by norm_num) (by norm_num)
  have h2 : appendInt (b ++ ['+'] ++ padDigits 2 0) (0 : Int) 2
      = b ++ ['+'] ++ padDigits 2 0 ++ padDigits 2 0 :=
    appendInt_pad _ 0 2 (by norm_num) (by norm_num) (by norm_num)
  simp only [appendZone]
  simp +decide only [Bool.and_false, Bool.false_eq_true, if_false, Int.zero_tdiv,
    Int.zero_tmod, lt_self_iff_false, Bool.or_false, Bool.or_self, Bool.and_self, if_true,
    Bool.true_and, Bool.false_or]
  rw [h, h2]
  simp [padDigits_zero]

theorem appendZone_numColonTZ (b : GoString) :
    appendZone b 0 .stdNumColonTZ = b ++ ['+', '0', '0', ':', '0', '0'] := by
  have h : appendInt (b ++ ['+']) (0 : Int) 2 = b ++ ['+'] ++ padDigits 2 0 :=
    appendInt_pad _ 0 2 (by norm_num) (by norm_num) (by norm_num)
  have h2 : appendInt (b ++ ['+'] ++ padDigits 2 0 ++ [':']) (0 : Int) 2
      = b ++ ['+'] ++ padDigits 2 0 ++ [':'] ++ padDigits 2 0 :=
    appendInt_pad _ 0 2 (by norm_num) (by norm_num) (by norm_num)
  simp only [appendZone]
  simp +decide only [Bool.and_false, Bool.false_eq_true, if_false, Int.zero_tdiv,
    Int.zero_tmod, lt_self_iff_false, Bool.or_false, Bool.or_self, Bool.and_self, if_true,
    Bool.true_and, Bool.false_or, Bool.or_true, Bool.true_or]
  rw [h, h2]
  simp [padDigits_zero]

theorem appendNano_int (b : GoString) (x : Int) (h0 : 0 ≤ x) (hx : x < 1000000000) :
    appendNano b x 3 '.' false = b ++ '.' :: padDigits 3 (x.toNat / 1000000) := by
  obtain ⟨n, rfl⟩ := Int.eq_ofNat_of_zero_le h0
  have : n < 10 ^ 9 := by norm_num; omega
  rw [appendNano_msec b n this]
  simp

theorem chunks_rfc : layoutChunks ("Mon, 02 Jan 2006 15:04:05 GMT".toList.length + 1)
      "Mon, 02 Jan 2006 15:04:05 GMT".toList
    = [([], some .stdWeekDay, ", 02 Jan 2006 15:04:05 GMT".toList),
       (", ".toList, some .stdZeroDay, " Jan 2006 15:04:05 GMT".toList),
       (" ".toList, some .stdMonth, " 2006 15:04:05 GMT".toList),
       (" ".toList, some .stdLongYear, " 15:04:05 GMT".toList),
       (" ".toList, some .stdHour, ":04:05 GMT".toList),
       (":".toList, some .stdZeroMinute, ":05 GMT".toList),
       (":".toList, some .stdZeroSecond, " GMT".toList),
       (" GMT".toList, none, [])] := by
  decide

theorem chunks_short : layoutChunks ("20060102T150405-0700".toList.length + 1)
      "20060102T150405-0700".toList
    = [([], some .stdLongYear, "0102T150405-0700".toList),
       ([], some .stdZeroMonth, "02T150405-0700".toList),
       ([], some .stdZeroDay, "T150405-0700".toList),
       (['T'], some .stdHour, "0405-0700".toList),
       ([], some .stdZeroMinute, "05-0700".toList),
       ([], some .stdZeroSecond, "-0700".toList),
       ([], some .stdNumTZ, []),
       ([], none, [])] := by
  decide

theorem chunks_shortMsec : layoutChunks ("20060102T150405.000-0700".toList.length + 1)
      "20060102T150405.000-0700".toList
    = [([], some .stdLongYear, "0102T150405.000-0700".toList),
       ([], some .stdZeroMonth, "02T150405.000-0700".toList),
       ([], some .stdZeroDay, "T150405.000-0700".toList),
       (['T'], some .stdHour, "0405.000-0700".toList),
       ([], some .stdZeroMinute, "05.000-0700".toList),
       ([], some .stdZeroSecond, ".000-0700".toList),
       ([], some (.stdFracSecond0 3 '.'), "-0700".toList),
       ([], some .stdNumTZ, []),
       ([], none, [])] := by
  decide

theorem chunks_long : layoutChunks ("2006-01-02T15:04:05-07:00".toList.length + 1)
      "2006-01-02T15:04:05-07:00".toList
    = [([], some .stdLongYear, "-01-02T15:04:05-07:00".toList),
       (['-'], some .stdZeroMonth, "-02T15:04:05-07:00".toList),
       (['-'], some .stdZeroDay, "T15:04:05-07:00".toList),
       (['T'], some .stdHour, ":04:05-07:00".toList),
       ([':'], some .stdZeroMinute, ":05-07:00".toList),
       ([':'], some .stdZeroSecond, "-07:00".toList),
       ([], some .stdNumColonTZ, []),
       ([], none, [])] := by
  decide

theorem chunks_longMsec : layoutChunks ("2006-01-02T15:04:05.000-07:00".toList.length + 1)
      "2006-01-02T15:04:05.000-07:00".toList
    = [([], some .stdLongYear, "-01-02T15:04:05.000-07:00".toList),
       (['-'], some .stdZeroMonth, "-02T15:04:05.000-07:00".toList),
       (['-'], some .stdZeroDay, "T15:04:05.000-07:00".toList),
       (['T'], some .stdHour, ":04:05.000-07:00".toList),
       ([':'], some .stdZeroMinute, ":05.000-07:00".toList),
       ([':'], some .stdZeroSecond, ".000-07:00".toList),
       ([], some (.stdFracSecond0 3 '.'), "-07:00".toList),
       ([], some .stdNumColonTZ, []),
       ([], none, [])] := by
  decide

/-- The civil fields of a time whose UTC year has at most four digits, as natural numbers. -/
theorem civil_bounds (A : Int) (hy0 : 0 ≤ (absDate A).year) (hy : (absDate A).year ≤ 9999) :
    (absDate A).year.toNat < 10000 ∧ 1 ≤ (absDate A).month.toNat ∧
      (absDate A).month.toNat ≤ 12 ∧ 1 ≤ (absDate A).day.toNat ∧
      (absDate A).day.toNat ≤ 31 ∧ (absClock A).1.toNat < 24 ∧ (absClock A).2.1.toNat < 60 ∧
      (absClock A).2.2.toNat < 60 ∧ ((absDate A).year.toNat : Int) = (absDate A).year ∧
      ((absDate A).month.toNat : Int) = (absDate A).month ∧
      ((absDate A).day.toNat : Int) = (absDate A).day ∧
      ((absClock A).1.toNat : Int) = (absClock A).1 ∧
      ((absClock A).2.1.toNat : Int) = (absClock A).2.1 ∧
      ((absClock A).2.2.toNat : Int) = (absClock A).2.2 := by
  obtain ⟨a1, a2, a3, a4, _, _⟩ := absDate_spec A
  obtain ⟨c1, c2, c3, c4, c5, c6, _⟩ := absClock_spec A
  omega

theorem format_short (t : Time) (hy0 : 0 ≤ (absDate (t.In UTC).abs).year)
    (hy : (absDate (t.In UTC).abs).year ≤ 9999) :
    ISO8601Short t
      = padDigits 4 (absDate (t.In UTC).abs).year.toNat
        ++ (padDigits 2 (absDate (t.In UTC).abs).month.toNat
        ++ (padDigits 2 (absDate (t.In UTC).abs).day.toNat
        ++ ('T' :: (padDigits 2 (absClock (t.In UTC).abs).1.toNat
        ++ (padDigits 2 (absClock (t.In UTC).abs).2.1.toNat
        ++ (padDigits 2 (absClock (t.In UTC).abs).2.2.toNat
        ++ (['+', '0', '0', '0', '0']))))))) := by
  obtain ⟨b1, b2, b3, b4, b5, b6, b7, b8, e1, e2, e3, e4, e5, e6⟩ :=
    civil_bounds (t.In UTC).abs hy0 hy
  have ho : (t.In UTC).loc.offset = 0 := rfl
  have hns : (t.In UTC).nsec = t.nsec := rfl
  simp only [ISO8601Short, Time.Format, formatLoop_eq_formatChunks]
  rw [chunks_short]
  simp only [formatChunks, appendStd, ho, hns, appendZone_numTZ]
  generalize (absWeekday (t.In UTC).abs) = wd at *
  generalize (absDate (t.In UTC).abs).year = y at *
  generalize (absDate (t.In UTC).abs).month = mo at *
  generalize (absDate (t.In UTC).abs).day = d at *
  generalize (absClock (t.In UTC).abs).1 = h at *
  generalize (absClock (t.In UTC).abs).2.1 = mi at *
  generalize (absClock (t.In UTC).abs).2.2 = s at *
  rw [appendInt_int _ y 4 (by norm_num) (by norm_num) (by omega) (by omega),
    appendInt_int _ mo 2 (by norm_num) (by norm_num) (by omega) (by omega),
    appendInt_int _ d 2 (by norm_num) (by norm_num) (by omega) (by omega),
    appendInt_int _ h 2 (by norm_num) (by norm_num) (by omega) (by omega),
    appendInt_int _ mi 2 (by norm_num) (by norm_num) (by omega) (by omega),
    appendInt_int _ s 2 (by norm_num) (by norm_num) (by omega) (by omega)]
  simp only [List.append_assoc, List.nil_append, List.singleton_append, List.cons_append,
    List.append_nil, String.toList]

theorem format_shortMsec (t : Time) (hy0 : 0 ≤ (absDate (t.In UTC).abs).year)
    (hy : (absDate (t.In UTC).abs).year ≤ 9999)
    (hn0 : 0 ≤ t.nsec) (hn : t.nsec < 1000000000) :
    ISO8601ShortMsec t
      = padDigits 4 (absDate (t.In UTC).abs).year.toNat
        ++ (padDigits 2 (absDate (t.In UTC).abs).month.toNat
        ++ (padDigits 2 (absDate (t.In UTC).abs).day.toNat
        ++ ('T' :: (padDigits 2 (absClock (t.In UTC).abs).1.toNat
        ++ (padDigits 2 (absClock (t.In UTC).abs).2.1.toNat
        ++ (padDigits 2 (absClock (t.In UTC).abs).2.2.toNat
        ++ ('.' :: (padDigits 3 (t.nsec.toNat / 1000000)
        ++ (['+', '0', '0', '0', '0']))))))))) := by
  obtain ⟨b1, b2, b3, b4, b5, b6, b7, b8, e1, e2, e3, e4, e5, e6⟩ :=
    civil_bounds (t.In UTC).abs hy0 hy
  have ho : (t.In UTC).loc.offset = 0 := rfl
  have hns : (t.In UTC).nsec = t.nsec := rfl
  simp only [ISO8601ShortMsec, Time.Format, formatLoop_eq_formatChunks]
  rw [chunks_shortMsec]
  simp only [formatChunks, appendStd, ho, hns, appendZone_numTZ]
  generalize (absWeekday (t.In UTC).abs) = wd at *
  generalize (absDate (t.In UTC).abs).year = y at *
  generalize (absDate (t.In UTC).abs).month = mo at *
  generalize (absDate (t.In UTC).abs).day = d at *
  generalize (absClock (t.In UTC).abs).1 = h at *
  generalize (absClock (t.In UTC).abs).2.1 = mi at *
  generalize (absClock (t.In UTC).abs).2.2 = s at *
  rw [appendInt_int _ y 4 (by norm_num) (by norm_num) (by omega) (by omega),
    appendInt_int _ mo 2 (by norm_num) (by norm_num) (by omega) (by omega),
    appendInt_int _ d 2 (by norm_num) (by norm_num) (by omega) (by omega),
    appendInt_int _ h 2 (by norm_num) (by norm_num) (by omega) (by omega),
    appendInt_int _ mi 2 (by norm_num) (by norm_num) (by omega) (by omega),
    appendInt_int _ s 2 (by norm_num) (by norm_num) (by omega) (by omega)]
  rw [appendNano_int _ t.nsec hn0 hn]
  simp only [List.append_assoc, List.nil_append, List.singleton_append, List.cons_append,
    List.append_nil, String.toList]

theorem format_long (t : Time) (hy0 : 0 ≤ (absDate (t.In UTC).abs).year)
    (hy : (absDate (t.In UTC).abs).year ≤ 9999) :
    ISO8601Long t
      = padDigits 4 (absDate (t.In UTC).abs).year.toNat
        ++ ('-' :: (padDigits 2 (absDate (t.In UTC).abs).month.toNat
        ++ ('-' :: (padDigits 2 (absDate (t.In UTC).abs).day.toNat
        ++ ('T' :: (padDigits 2 (absClock (t.In UTC).abs).1.toNat
        ++ (':' :: (padDigits 2 (absClock (t.In UTC).abs).2.1.toNat
        ++ (':' :: (padDigits 2 (absClock (t.In UTC).abs).2.2.toNat
        ++ (['+', '0', '0', ':', '0', '0']))))))))))) := by
  obtain ⟨b1, b2, b3, b4, b5, b6, b7, b8, e1, e2, e3, e4, e5, e6⟩ :=
    civil_bounds (t.In UTC).abs hy0 hy
  have ho : (t.In UTC).loc.offset = 0 := rfl
  have hns : (t.In UTC).nsec = t.nsec := rfl
  simp only [ISO8601Long, Time.Format, formatLoop_eq_formatChunks]
  rw [chunks_long]
  simp only [formatChunks, appendStd, ho, hns, appendZone_numColonTZ]
  generalize (absWeekday (t.In UTC).abs) = wd at *
  generalize (absDate (t.In UTC).abs).year = y at *
  generalize (absDate (t.In UTC).abs).month = mo at *
  generalize (absDate (t.In UTC).abs).day = d at *
  generalize (absClock (t.In UTC).abs).1 = h at *
  generalize (absClock (t.In UTC).abs).2.1 = mi at *
  generalize (absClock (t.In UTC).abs).2.2 = s at *
  rw [appendInt_int _ y 4 (by norm_num) (by norm_num) (by omega) (by omega),
    appendInt_int _ mo 2 (by norm_num) (by norm_num) (by omega) (by omega),
    appendInt_int _ d 2 (by norm_num) (by norm_num) (by omega) (by omega),
    appendInt_int _ h 2 (by norm_num) (by norm_num) (by omega) (by omega),
    appendInt_int _ mi 2 (by norm_num) (by norm_num) (by omega) (by omega),
    appendInt_int _ s 2 (by norm_num) (by norm_num) (by omega) (by omega)]
  simp only [List.append_assoc, List.nil_append, List.singleton_append, List.cons_append,
    List.append_nil, String.toList]

theorem format_longMsec (t : Time) (hy0 : 0 ≤ (absDate (t.In UTC).abs).year)
    (hy : (absDate (t.In UTC).abs).year ≤ 9999)
    (hn0 : 0 ≤ t.nsec) (hn : t.nsec < 1000000000) :
    ISO8601LongMsec t
      = padDigits 4 (absDate (t.In UTC).abs).year.toNat
        ++ ('-' :: (padDigits 2 (absDate (t.In UTC).abs).month.toNat
        ++ ('-' :: (padDigits 2 (absDate (t.In UTC).abs).day.toNat
        ++ ('T' :: (padDigits 2 (absClock (t.In UTC).abs).1.toNat
        ++ (':' :: (padDigits 2 (absClock (t.In UTC).abs).2.1.toNat
        ++ (':' :: (padDigits 2 (absClock (t.In UTC).abs).2.2.toNat
        ++ ('.' :: (padDigits 3 (t.nsec.toNat / 1000000)
        ++ (['+', '0', '0', ':', '0', '0']))))))))))))) := by
  obtain ⟨b1, b2, b3, b4, b5, b6, b7, b8, e1, e2, e3, e4, e5, e6⟩ :=
    civil_bounds (t.In UTC).abs hy0 hy
  have ho : (t.In UTC).loc.offset = 0 := rfl
  have hns : (t.In UTC).nsec = t.nsec := rfl
  simp only [ISO8601LongMsec, Time.Format, formatLoop_eq_formatChunks]
  rw [chunks_longMsec]
  simp only [formatChunks, appendStd, ho, hns, appendZone_numColonTZ]
  generalize (absWeekday (t.In UTC).abs) = wd at *
  generalize (absDate (t.In UTC).abs).year = y at *
  generalize (absDate (t.In UTC).abs).month = mo at *
  generalize (absDate (t.In UTC).abs).day = d at *
  generalize (absClock (t.In UTC).abs).1 = h at *
  generalize (absClock (t.In UTC).abs).2.1 = mi at *
  generalize (absClock (t.In UTC).abs).2.2 = s at *
  rw [appendInt_int _ y 4 (by norm_num) (by norm_num) (by omega) (by omega),
    appendInt_int _ mo 2 (by norm_num) (by norm_num) (by omega) (by omega),
    appendInt_int _ d 2 (by norm_num) (by norm_num) (by omega) (by omega),
    appendInt_int _ h 2 (by norm_num) (by norm_num) (by omega) (by omega),
    appendInt_int _ mi 2 (by norm_num) (by norm_num) (by omega) (by omega),
    appendInt_int _ s 2 (by norm_num) (by norm_num) (by omega) (by omega)]
  rw [appendNano_int _ t.nsec hn0 hn]
  simp only [List.append_assoc, List.nil_append, List.singleton_append, List.cons_append,
    List.append_nil, String.toList]

theorem format_rfc (t : Time) (hy0 : 0 ≤ (absDate (t.In UTC).abs).year)
    (hy : (absDate (t.In UTC).abs).year ≤ 9999) :
    RFC7232 t
      = (weekdayString (absWeekday (t.In UTC).abs)).take 3
        ++ (',' :: (' ' :: (padDigits 2 (absDate (t.In UTC).abs).day.toNat
        ++ (' ' :: ((monthString (absDate (t.In UTC).abs).month).take 3
        ++ (' ' :: (padDigits 4 (absDate (t.In UTC).abs).year.toNat
        ++ (' ' :: (padDigits 2 (absClock (t.In UTC).abs).1.toNat
        ++ (':' :: (padDigits 2 (absClock (t.In UTC).abs).2.1.toNat
        ++ (':' :: (padDigits 2 (absClock (t.In UTC).abs).2.2.toNat
        ++ ([' ', 'G', 'M', 'T'])))))))))))))) := by
  obtain ⟨b1, b2, b3, b4, b5, b6, b7, b8, e1, e2, e3, e4, e5, e6⟩ :=
    civil_bounds (t.In UTC).abs hy0 hy
  have ho : (t.In UTC).loc.offset = 0 := rfl
  have hns : (t.In UTC).nsec = t.nsec := rfl
  simp only [RFC7232, Time.Format, formatLoop_eq_formatChunks]
  rw [chunks_rfc]
  simp only [formatChunks, appendStd, ho, hns, appendZone_numTZ]
  generalize (absWeekday (t.In UTC).abs) = wd at *
  generalize (absDate (t.In UTC).abs).year = y at *
  generalize (absDate (t.In UTC).abs).month = mo at *
  generalize (absDate (t.In UTC).abs).day = d at *
  generalize (absClock (t.In UTC).abs).1 = h at *
  generalize (absClock (t.In UTC).abs).2.1 = mi at *
  generalize (absClock (t.In UTC).abs).2.2 = s at *
  rw [appendInt_int _ y 4 (by norm_num) (by norm_num) (by omega) (by omega),
    appendInt_int _ d 2 (by norm_num) (by norm_num) (by omega) (by omega),
    appendInt_int _ h 2 (by norm_num) (by norm_num) (by omega) (by omega),
    appendInt_int _ mi 2 (by norm_num) (by norm_num) (by omega) (by omega),
    appendInt_int _ s 2 (by norm_num) (by norm_num) (by omega) (by omega)]
  simp only [List.append_assoc, List.nil_append, List.singleton_append, List.cons_append,
    List.append_nil, String.toList]

/-! ## Theorems: formatters and `ParseGetUTC` -/

theorem skip_nil (value : GoString) : skip value [] = some value := rfl

theorem skip_char (c : Char) (rest : GoString) (hc : c ≠ ' ') :
    skip (c :: rest) [c] = some rest := by
  have h : (c == ' ') = false := by rw [beq_eq_false_iff_ne]; exact hc
  simp [skip, skipLoop, h]

theorem padDigits_head : ∀ (w n : Nat), ∃ x tl, padDigits (w + 1) n = digitChar (x % 10) :: tl := by
  intro w
  induction w with
  | zero => intro n; exact ⟨n, [], by simp [padDigits]⟩
  | succ k ih =>
    intro n
    obtain ⟨x, tl, h⟩ := ih (n / 10)
    refine ⟨x, tl ++ [digitChar (n % 10)], ?_⟩
    rw [padDigits, h]
    rfl

theorem skip_space_pad (w n : Nat) (rest : GoString) :
    skip (' ' :: (padDigits (w + 1) n ++ rest)) [' '] = some (padDigits (w + 1) n ++ rest) := by
  obtain ⟨x, tl, h⟩ := padDigits_head w n
  rw [h]
  simp [skip, skipLoop, cutspace, List.dropWhile, digitChar_beq x ' ' (by decide)]

theorem skip_comma_space_pad (w n : Nat) (rest : GoString) :
    skip (',' :: ' ' :: (padDigits (w + 1) n ++ rest)) [',', ' ']
      = some (padDigits (w + 1) n ++ rest) := by
  obtain ⟨x, tl, h⟩ := padDigits_head w n
  rw [h]
  simp [skip, skipLoop, cutspace, List.dropWhile, digitChar_beq x ' ' (by decide)]

theorem skip_gmt : skip [' ', 'G', 'M', 'T'] [' ', 'G', 'M', 'T'] = some [] := by decide

theorem parseStd_numTZ_zero (layout : GoString) (f : Fields) :
    parseStd .stdNumTZ layout ['+', '0', '0', '0', '0'] f
      = Except.ok ([], { f with zoneOffset := 0 }) := by
  simp [parseStd, parseZone, getnum, hasHead, isDigit, headIsDigit, digitVal]

theorem parseStd_numColonTZ_zero (layout : GoString) (f : Fields) :
    parseStd .stdNumColonTZ layout ['+', '0', '0', ':', '0', '0'] f
      = Except.ok ([], { f with zoneOffset := 0 }) := by
  simp [parseStd, parseZone, getnum, hasHead, isDigit, headIsDigit, digitVal]

/-- Weekday names written by `Format` are read back by `lookup`. -/
theorem lookup_weekday (w : Int) (h0 : 0 ≤ w) (h6 : w ≤ 6) (rest : GoString) :
    lookup shortDayNames ((weekdayString w).take 3 ++ rest) = some (w, rest) := by
  have hw : w = 0 ∨ w = 1 ∨ w = 2 ∨ w = 3 ∨ w = 4 ∨ w = 5 ∨ w = 6 := by omega
  rcases hw with h | h | h | h | h | h | h <;> subst h <;>
    simp [lookup, lookupFrom, shortDayNames, weekdayString, longDayNames, matchFold,
      String.length]

/-- Month names written by `Format` are read back by `lookup` as the month number less one. -/
theorem lookup_month (m : Int) (h1 : 1 ≤ m) (h12 : m ≤ 12) (rest : GoString) :
    lookup shortMonthNames ((monthString m).take 3 ++ rest) = some (m - 1, rest) := by
  have hm : m = 1 ∨ m = 2 ∨ m = 3 ∨ m = 4 ∨ m = 5 ∨ m = 6 ∨ m = 7 ∨ m = 8 ∨ m = 9 ∨ m = 10
      ∨ m = 11 ∨ m = 12 := by omega
  rcases hm with h | h | h | h | h | h | h | h | h | h | h | h <;> subst h <;>
    simp [lookup, lookupFrom, shortMonthNames, monthString, longMonthNames, matchFold,
      String.length]

theorem chunks_rfc_explicit : layoutChunks ("Mon, 02 Jan 2006 15:04:05 GMT".toList.length + 1)
      "Mon, 02 Jan 2006 15:04:05 GMT".toList
    = [([], some .stdWeekDay, ", 02 Jan 2006 15:04:05 GMT".toList),
       ([',', ' '], some .stdZeroDay, " Jan 2006 15:04:05 GMT".toList),
       ([' '], some .stdMonth, " 2006 15:04:05 GMT".toList),
       ([' '], some .stdLongYear, " 15:04:05 GMT".toList),
       ([' '], some .stdHour, ":04:05 GMT".toList),
       ([':'], some .stdZeroMinute, ":05 GMT".toList),
       ([':'], some .stdZeroSecond, " GMT".toList),
       ([' ', 'G', 'M', 'T'], none, [])] := chunks_rfc

theorem skip_space_month (m : Int) (h1 : 1 ≤ m) (h12 : m ≤ 12) (rest : GoString) :
    skip (' ' :: ((monthString m).take 3 ++ rest)) [' '] = some ((monthString m).take 3 ++ rest) := by
  have hm : m = 1 ∨ m = 2 ∨ m = 3 ∨ m = 4 ∨ m = 5 ∨ m = 6 ∨ m = 7 ∨ m = 8 ∨ m = 9 ∨ m = 10
      ∨ m = 11 ∨ m = 12 := by omega
  rcases hm with h | h | h | h | h | h | h | h | h | h | h | h <;> subst h <;>
    simp [skip, skipLoop, cutspace, List.dropWhile, monthString, longMonthNames]

theorem parseStd_weekDay (w : Int) (h0 : 0 ≤ w) (h6 : w ≤ 6) (layout rest : GoString)
    (f : Fields) :
    parseStd .stdWeekDay layout ((weekdayString w).take 3 ++ rest) f = Except.ok (rest, f) := by
  simp only [parseStd, lookup_weekday w h0 h6]

theorem parseStd_month (m : Int) (h1 : 1 ≤ m) (h12 : m ≤ 12) (layout rest : GoString)
    (f : Fields) :
    parseStd .stdMonth layout ((monthString m).take 3 ++ rest) f
      = Except.ok (rest, { f with month := m }) := by
  simp only [parseStd, lookup_month m h1 h12, sub_add_cancel]

theorem not_frac_numTZ : ∀ (k : Nat) (s : Char),
    (nextStdChunk "-0700".toList).2.1 ≠ some (.stdFracSecond0 k s) ∧
      (nextStdChunk "-0700".toList).2.1 ≠ some (.stdFracSecond9 k s) := by
  have h : (nextStdChunk "-0700".toList).2.1 = some .stdNumTZ := by decide
  intro k s
  rw [h]
  constructor <;> simp

theorem not_frac_numColonTZ : ∀ (k : Nat) (s : Char),
    (nextStdChunk "-07:00".toList).2.1 ≠ some (.stdFracSecond0 k s) ∧
      (nextStdChunk "-07:00".toList).2.1 ≠ some (.stdFracSecond9 k s) := by
  have h : (nextStdChunk "-07:00".toList).2.1 = some .stdNumColonTZ := by decide
  intro k s
  rw [h]
  constructor <;> simp

theorem Parse_short (Y MO D H MI S : Nat) (hY : Y < 10000) (hMO1 : 1 ≤ MO) (hMO : MO ≤ 12)
    (hD : D < 100) (hH : H < 24) (hMI : MI < 60) (hS : S < 60) :
    Parse "20060102T150405-0700".toList
        (padDigits 4 Y ++ (padDigits 2 MO ++ (padDigits 2 D ++ 'T' :: (padDigits 2 H
          ++ (padDigits 2 MI ++ (padDigits 2 S ++ ['+', '0', '0', '0', '0']))))))
      = buildTime { year := Y, month := MO, day := D, hour := H, min := MI, sec := S,
                    zoneOffset := 0 } := by
  simp only [Parse, parseLoop_eq_parseChunks]
  rw [chunks_short]
  simp only [parseChunks, skip_nil, skip_char 'T' _ (by decide), parseStd_longYear Y hY,
    parseStd_zeroMonth MO hMO1 hMO, parseStd_zeroDay D hD, parseStd_hour H hH,
    parseStd_zeroMinute MI hMI, parseStd_zeroSecond_plain S hS _ '+' _ (by decide),
    parseStd_numTZ_zero, List.isEmpty_nil, if_true]

theorem Parse_short_msec (Y MO D H MI S F : Nat) (hY : Y < 10000) (hMO1 : 1 ≤ MO)
    (hMO : MO ≤ 12) (hD : D < 100) (hH : H < 24) (hMI : MI < 60) (hS : S < 60) (hF : F < 1000) :
    Parse "20060102T150405-0700".toList
        (padDigits 4 Y ++ (padDigits 2 MO ++ (padDigits 2 D ++ 'T' :: (padDigits 2 H
          ++ (padDigits 2 MI ++ (padDigits 2 S ++ '.' :: (padDigits 3 F
            ++ ['+', '0', '0', '0', '0'])))))))
      = buildTime { year := Y, month := MO, day := D, hour := H, min := MI, sec := S,
                    nsec := (F : Int) * 1000000, zoneOffset := 0 } := by
  simp only [Parse, parseLoop_eq_parseChunks]
  rw [chunks_short]
  simp only [parseChunks, skip_nil, skip_char 'T' _ (by decide), parseStd_longYear Y hY,
    parseStd_zeroMonth MO hMO1 hMO, parseStd_zeroDay D hD, parseStd_hour H hH,
    parseStd_zeroMinute MI hMI,
    parseStd_zeroSecond_frac S F hS hF _ '+' _ (by decide) _ not_frac_numTZ,
    parseStd_numTZ_zero, List.isEmpty_nil, if_true]

theorem Parse_long (Y MO D H MI S : Nat) (hY : Y < 10000) (hMO1 : 1 ≤ MO) (hMO : MO ≤ 12)
    (hD : D < 100) (hH : H < 24) (hMI : MI < 60) (hS : S < 60) :
    Parse "2006-01-02T15:04:05-07:00".toList
        (padDigits 4 Y ++ '-' :: (padDigits 2 MO ++ '-' :: (padDigits 2 D ++ 'T' :: (padDigits 2 H
          ++ ':' :: (padDigits 2 MI ++ ':' :: (padDigits 2 S ++ ['+', '0', '0', ':', '0', '0']))))))
      = buildTime { year := Y, month := MO, day := D, hour := H, min := MI, sec := S,
                    zoneOffset := 0 } := by
  simp only [Parse, parseLoop_eq_parseChunks]
  rw [chunks_long]
  simp only [parseChunks, skip_nil, skip_char 'T' _ (by decide), skip_char '-' _ (by decide),
    skip_char ':' _ (by decide), parseStd_longYear Y hY,
    parseStd_zeroMonth MO hMO1 hMO, parseStd_zeroDay D hD, parseStd_hour H hH,
    parseStd_zeroMinute MI hMI, parseStd_zeroSecond_plain S hS _ '+' _ (by decide),
    parseStd_numColonTZ_zero, List.isEmpty_nil, if_true]

theorem Parse_long_msec (Y MO D H MI S F : Nat) (hY : Y < 10000) (hMO1 : 1 ≤ MO)
    (hMO : MO ≤ 12) (hD : D < 100) (hH : H < 24) (hMI : MI < 60) (hS : S < 60) (hF : F < 1000) :
    Parse "2006-01-02T15:04:05-07:00".toList
        (padDigits 4 Y ++ '-' :: (padDigits 2 MO ++ '-' :: (padDigits 2 D ++ 'T' :: (padDigits 2 H
          ++ ':' :: (padDigits 2 MI ++ ':' :: (padDigits 2 S ++ '.' :: (padDigits 3 F
            ++ ['+', '0', '0', ':', '0', '0'])))))))
      = buildTime { year := Y, month := MO, day := D, hour := H, min := MI, sec := S,
                    nsec := (F : Int) * 1000000, zoneOffset := 0 } := by
  simp only [Parse, parseLoop_eq_parseChunks]
  rw [chunks_long]
  simp only [parseChunks, skip_nil, skip_char 'T' _ (by decide), skip_char '-' _ (by decide),
    skip_char ':' _ (by decide), parseStd_longYear Y hY,
    parseStd_zeroMonth MO hMO1 hMO, parseStd_zeroDay D hD, parseStd_hour H hH,
    parseStd_zeroMinute MI hMI,
    parseStd_zeroSecond_frac S F hS hF _ '+' _ (by decide) _ not_frac_numColonTZ,
    parseStd_numColonTZ_zero, List.isEmpty_nil, if_true]

theorem Parse_rfc (w m : Int) (Y D H MI S : Nat) (hw0 : 0 ≤ w) (hw : w ≤ 6) (hm1 : 1 ≤ m)
    (hm : m ≤ 12) (hY : Y < 10000) (hD : D < 100) (hH : H < 24) (hMI : MI < 60) (hS : S < 60) :
    Parse "Mon, 02 Jan 2006 15:04:05 GMT".toList
        ((weekdayString w).take 3 ++ ',' :: ' ' :: (padDigits 2 D ++ ' ' :: ((monthString m).take 3
          ++ ' ' :: (padDigits 4 Y ++ ' ' :: (padDigits 2 H ++ ':' :: (padDigits 2 MI
          ++ ':' :: (padDigits 2 S ++ [' ', 'G', 'M', 'T'])))))))
      = buildTime { year := Y, month := m, day := D, hour := H, min := MI, sec := S } := by
  simp only [Parse, parseLoop_eq_parseChunks]
  rw [chunks_rfc_explicit]
  simp only [parseChunks, skip_nil, skip_char ':' _ (by decide), parseStd_weekDay w hw0 hw,
    skip_comma_space_pad 1 D, parseStd_zeroDay D hD, skip_space_month m hm1 hm,
    parseStd_month m hm1 hm, skip_space_pad 3 Y, parseStd_longYear Y hY, skip_space_pad 1 H,
    parseStd_hour H hH, parseStd_zeroMinute MI hMI,
    parseStd_zeroSecond_plain S hS _ ' ' _ (by decide), skip_gmt, List.isEmpty_nil, if_true]

theorem digit_or32 (x : Nat) : (48 + x % 10) ||| 32 = 48 + x % 10 := by
  have h : x % 10 < 10 := Nat.mod_lt _ (by norm_num)
  generalize x % 10 = k at h
  interval_cases k <;> rfl

theorem matchFold_digit (x : Nat) (s1 : GoString) (c2 : Char) (s2 : GoString)
    (hc : isDigit c2 = false) : matchFold (digitChar (x % 10) :: s1) (c2 :: s2) = false := by
  have h : x % 10 < 10 := Nat.mod_lt _ (by norm_num)
  have hlt : 48 + x % 10 < 97 := by omega
  simp [matchFold, digitChar_bne x c2 hc, digitChar_mod_toNat, digit_or32, hlt]

theorem lookupFrom_digit (x : Nat) (rest : GoString) : ∀ (tab : List String) (i : Nat),
    tab.all (fun v => !v.toList.isEmpty && !headIsDigit v.toList) = true →
    lookupFrom tab i (digitChar (x % 10) :: rest) = none := by
  intro tab
  induction tab with
  | nil => intro i _; rfl
  | cons v tab ih =>
    intro i h
    simp only [List.all_cons, Bool.and_eq_true] at h
    obtain ⟨⟨hv1, hv2⟩, ht⟩ := h
    cases hv : v.toList with
    | nil => rw [hv] at hv1; simp at hv1
    | cons c tl =>
      rw [hv] at hv2
      have hc : isDigit c = false := by simpa [headIsDigit] using hv2
      have hl : v.length = tl.length + 1 := by
        have h1 : v.length = v.toList.length := by cases v; rfl
        rw [h1, hv]
        rfl
      rw [lookupFrom, hv, hl, List.take_succ_cons, matchFold_digit x _ c tl hc, Bool.and_false]
      simp only [Bool.false_eq_true, if_false]
      exact ih (i + 1) ht

theorem lookup_day_digit (x : Nat) (rest : GoString) :
    lookup shortDayNames (digitChar (x % 10) :: rest) = none :=
  lookupFrom_digit x rest shortDayNames 0 (by decide)

/-- The layout of RFC 7232 rejects a text that starts with a decimal digit. -/
theorem Parse_rfc_digit (w n : Nat) (rest : GoString) :
    (Parse "Mon, 02 Jan 2006 15:04:05 GMT".toList (padDigits (w + 1) n ++ rest)).toBool = false := by
  obtain ⟨x, tl, h⟩ := padDigits_head w n
  simp only [Parse, parseLoop_eq_parseChunks]
  rw [chunks_rfc_explicit, h]
  simp only [parseChunks, skip_nil, parseStd, List.cons_append, lookup_day_digit, Except.toBool]

theorem chunks_short6 : layoutChunks ("20060102T150405.000000-0700".toList.length + 1)
      "20060102T150405.000000-0700".toList
    = [([], some .stdLongYear, "0102T150405.000000-0700".toList),
       ([], some .stdZeroMonth, "02T150405.000000-0700".toList),
       ([], some .stdZeroDay, "T150405.000000-0700".toList),
       (['T'], some .stdHour, "0405.000000-0700".toList),
       ([], some .stdZeroMinute, "05.000000-0700".toList),
       ([], some .stdZeroSecond, ".000000-0700".toList),
       ([], some (.stdFracSecond0 6 '.'), "-0700".toList),
       ([], some .stdNumTZ, []),
       ([], none, [])] := by
  decide

theorem chunks_short9 : layoutChunks ("20060102T150405.999999999-0700".toList.length + 1)
      "20060102T150405.999999999-0700".toList
    = [([], some .stdLongYear, "0102T150405.999999999-0700".toList),
       ([], some .stdZeroMonth, "02T150405.999999999-0700".toList),
       ([], some .stdZeroDay, "T150405.999999999-0700".toList),
       (['T'], some .stdHour, "0405.999999999-0700".toList),
       ([], some .stdZeroMinute, "05.999999999-0700".toList),
       ([], some .stdZeroSecond, ".999999999-0700".toList),
       ([], some (.stdFracSecond9 9 '.'), "-0700".toList),
       ([], some .stdNumTZ, []),
       ([], none, [])] := by
  decide

/-- A layout that starts `200601` rejects a text with a `-` after the year. -/
theorem parseChunks_year_dash (Y : Nat) (hY : Y < 10000) (l1 l2 rest : GoString)
    (tail : List (GoString × Option Std × GoString)) (f : Fields) :
    (parseChunks (([], some .stdLongYear, l1) :: ([], some .stdZeroMonth, l2) :: tail)
      (padDigits 4 Y ++ '-' :: rest) f).toBool = false := by
  simp only [parseChunks, skip_nil, parseStd_longYear Y hY]
  simp [parseStd, getnum, isDigit, Except.toBool]

theorem Parse_short_dash (Y : Nat) (hY : Y < 10000) (rest : GoString) :
    (Parse "20060102T150405-0700".toList (padDigits 4 Y ++ '-' :: rest)).toBool = false ∧
    (Parse "20060102T150405.000-0700".toList (padDigits 4 Y ++ '-' :: rest)).toBool = false ∧
    (Parse "20060102T150405.000000-0700".toList (padDigits 4 Y ++ '-' :: rest)).toBool = false ∧
    (Parse "20060102T150405.999999999-0700".toList (padDigits 4 Y ++ '-' :: rest)).toBool
      = false := by
  have key : ∀ (c : List (GoString × Option Std × GoString)) (l1 l2 : GoString)
      (tail : List (GoString × Option Std × GoString)),
      c = ([], some .stdLongYear, l1) :: ([], some .stdZeroMonth, l2) :: tail →
      (match parseChunks c (padDigits 4 Y ++ '-' :: rest) {} with
        | Except.error e => Except.error e
        | Except.ok f => buildTime f).toBool = false := by
    intro c l1 l2 tail hc
    have h := parseChunks_year_dash Y hY l1 l2 rest tail {}
    rw [← hc] at h
    cases hp : parseChunks c (padDigits 4 Y ++ '-' :: rest) {} with
    | ok f => rw [hp] at h; simp [Except.toBool] at h
    | error e => rfl
  refine ⟨?_, ?_, ?_, ?_⟩
  · simp only [Parse, parseLoop_eq_parseChunks]
    exact key _ _ _ _ chunks_short
  · simp only [Parse, parseLoop_eq_parseChunks]
    exact key _ _ _ _ chunks_shortMsec
  · simp only [Parse, parseLoop_eq_parseChunks]
    exact key _ _ _ _ chunks_short6
  · simp only [Parse, parseLoop_eq_parseChunks]
    exact key _ _ _ _ chunks_short9

/-- The end of `parse` on the civil fields of an absolute time `A`: the time is rebuilt. -/
theorem buildTime_civil (A ns : Int) (hns0 : 0 ≤ ns) (hns : ns < 1000000000) :
    buildTime { year := (absDate A).year, month := (absDate A).month, day := (absDate A).day,
                hour := (absClock A).1, min := (absClock A).2.1, sec := (absClock A).2.2,
                nsec := ns, zoneOffset := 0 }
        = Except.ok ⟨A - 9223372028715321600, ns, ⟨"", 0⟩⟩ ∧
      buildTime { year := (absDate A).year, month := (absDate A).month, day := (absDate A).day,
                  hour := (absClock A).1, min := (absClock A).2.1, sec := (absClock A).2.2,
                  nsec := ns }
        = Except.ok ⟨A - 9223372028715321600, ns, UTC⟩ := by
  obtain ⟨a1, a2, a3, a4, a5, _⟩ := absDate_spec A
  obtain ⟨c1, c2, c3, c4, c5, c6, c7⟩ := absClock_spec A
  have hD := Date_absDate A 0 (absClock A).1 (absClock A).2.1 (absClock A).2.2 ns c1 c2 c3 c4 c5
    c6 hns0 hns
  rw [add_zero] at hD
  have hsec : (A / 86400 + 0) * 86400
      + ((absClock A).1 * 3600 + (absClock A).2.1 * 60 + (absClock A).2.2)
      - 9223372028715321600 = A - 9223372028715321600 := by omega
  rw [hsec] at hD
  have hm : ¬ (absDate A).month < 0 := by omega
  have hd : ¬ (absDate A).day < 0 := by omega
  have hv : ¬ ((absDate A).day < 1 ∨ (absDate A).day > daysIn (absDate A).month (absDate A).year) := by
    omega
  constructor
  · simp [buildTime, hm, hd, hv, hD]
  · simp [buildTime, hm, hd, hv, hD]

theorem ParseGetUTC_of_first (fscale : Int → Nat → Int) (v : GoString) (pre post : List String)
    (format : String) (t0 : Time) (hmd : matchDigits v = false)
    (hsplit : timeFormats = pre ++ format :: post)
    (hpre : ∀ f ∈ pre, (Parse f.toList v).toBool = false)
    (hok : Parse format.toList v = Except.ok t0) :
    ParseGetUTC fscale v = Outcome.ret (some (t0.In UTC), none) := by
  have h := parseFormats_first v UTC t0 format post pre hpre hok
  rw [← hsplit] at h
  simp [ParseGetUTC, ParseWithLocation, hmd, h]

theorem matchDigits_append_nondigit (a : GoString) (c : Char) (b : GoString)
    (hc : isDigit c = false) : matchDigits (a ++ c :: b) = false := by
  simp [matchDigits, List.all_append, hc]

theorem nsec_msec (ns : Int) (h0 : 0 ≤ ns) (h : ns < 1000000000) :
    ((ns.toNat / 1000000 : Nat) : Int) * 1000000 = ns / 1000000 * 1000000 ∧
      ns.toNat / 1000000 < 1000 ∧ 0 ≤ ns / 1000000 * 1000000 ∧
      ns / 1000000 * 1000000 < 1000000000 := by
  omega

theorem roundtrip_rfc (fscale : Int → Nat → Int) (t : Time)
    (hy0 : 0 ≤ (absDate (t.In UTC).abs).year) (hy : (absDate (t.In UTC).abs).year ≤ 9999) :
    ParseGetUTC fscale (RFC7232 t) = Outcome.ret (some ⟨t.sec, 0, UTC⟩, none) := by
  obtain ⟨b1, b2, b3, b4, b5, b6, b7, b8, e1, e2, e3, e4, e5, e6⟩ :=
    civil_bounds (t.In UTC).abs hy0 hy
  obtain ⟨a1, a2, _, _, _, _⟩ := absDate_spec (t.In UTC).abs
  have hw : 0 ≤ absWeekday (t.In UTC).abs ∧ absWeekday (t.In UTC).abs ≤ 6 := by
    simp only [absWeekday, secondsPerDay, secondsPerWeek]
    omega
  have hA : (t.In UTC).abs - 9223372028715321600 = t.sec := by
    rw [abs_UTC _ rfl]
    simp [Time.In]
  have hb := (buildTime_civil (t.In UTC).abs 0 (by norm_num) (by norm_num)).2
  rw [format_rfc t hy0 hy]
  have hP := Parse_rfc (absWeekday (t.In UTC).abs) (absDate (t.In UTC).abs).month (absDate (t.In UTC).abs).year.toNat (absDate (t.In UTC).abs).day.toNat
    (absClock (t.In UTC).abs).1.toNat (absClock (t.In UTC).abs).2.1.toNat (absClock (t.In UTC).abs).2.2.toNat hw.1 hw.2 a1 a2 b1 (by omega) b6 b7 b8
  rw [e1, e3, e4, e5, e6] at hP
  have hok := hP.trans hb
  rw [ParseGetUTC_of_first fscale _ [] (timeFormats.drop 1)
    "Mon, 02 Jan 2006 15:04:05 GMT" _ ?_ (by decide) ?_ hok]
  · rw [hA]; rfl
  · exact matchDigits_append_nondigit _ ',' _ (by decide)
  · intro f hf
    simp at hf

theorem roundtrip_short (fscale : Int → Nat → Int) (t : Time)
    (hy0 : 0 ≤ (absDate (t.In UTC).abs).year) (hy : (absDate (t.In UTC).abs).year ≤ 9999) :
    ParseGetUTC fscale (ISO8601Short t) = Outcome.ret (some ⟨t.sec, 0, UTC⟩, none) := by
  obtain ⟨b1, b2, b3, b4, b5, b6, b7, b8, e1, e2, e3, e4, e5, e6⟩ :=
    civil_bounds (t.In UTC).abs hy0 hy
  obtain ⟨a1, a2, _, _, _, _⟩ := absDate_spec (t.In UTC).abs
  have hw : 0 ≤ absWeekday (t.In UTC).abs ∧ absWeekday (t.In UTC).abs ≤ 6 := by
    simp only [absWeekday, secondsPerDay, secondsPerWeek]
    omega
  have hA : (t.In UTC).abs - 9223372028715321600 = t.sec := by
    rw [abs_UTC _ rfl]
    simp [Time.In]
  have hb := (buildTime_civil (t.In UTC).abs 0 (by norm_num) (by norm_num)).1
  rw [format_short t hy0 hy]
  have hP := Parse_short (absDate (t.In UTC).abs).year.toNat (absDate (t.In UTC).abs).month.toNat (absDate (t.In UTC).abs).day.toNat
    (absClock (t.In UTC).abs).1.toNat (absClock (t.In UTC).abs).2.1.toNat (absClock (t.In UTC).abs).2.2.toNat
    b1 b2 b3 (by omega) b6 b7 b8
  rw [e1, e2, e3, e4, e5, e6] at hP
  have hok := hP.trans hb
  rw [ParseGetUTC_of_first fscale _ ["Mon, 02 Jan 2006 15:04:05 GMT"] (timeFormats.drop 2)
    "20060102T150405-0700" _ ?_ (by decide) ?_ hok]
  · rw [hA]; rfl
  · simp only [← List.append_assoc]
    exact matchDigits_append_nondigit _ 'T' _ (by decide)
  · intro f hf
    simp only [List.mem_singleton] at hf
    subst hf
    exact Parse_rfc_digit 3 _ _

theorem roundtrip_shortMsec (fscale : Int → Nat → Int) (t : Time)
    (hy0 : 0 ≤ (absDate (t.In UTC).abs).year) (hy : (absDate (t.In UTC).abs).year ≤ 9999)
    (hn0 : 0 ≤ t.nsec) (hn : t.nsec < 1000000000) :
    ParseGetUTC fscale (ISO8601ShortMsec t) = Outcome.ret (some ⟨t.sec, t.nsec / 1000000 * 1000000, UTC⟩, none) := by
  obtain ⟨b1, b2, b3, b4, b5, b6, b7, b8, e1, e2, e3, e4, e5, e6⟩ :=
    civil_bounds (t.In UTC).abs hy0 hy
  obtain ⟨a1, a2, _, _, _, _⟩ := absDate_spec (t.In UTC).abs
  have hw : 0 ≤ absWeekday (t.In UTC).abs ∧ absWeekday (t.In UTC).abs ≤ 6 := by
    simp only [absWeekday, secondsPerDay, secondsPerWeek]
    omega
  have hA : (t.In UTC).abs - 9223372028715321600 = t.sec := by
    rw [abs_UTC _ rfl]
    simp [Time.In]
  obtain ⟨f1, f2, f3, f4⟩ := nsec_msec t.nsec hn0 hn
  have hb := (buildTime_civil (t.In UTC).abs (t.nsec / 1000000 * 1000000) f3 f4).1
  rw [format_shortMsec t hy0 hy hn0 hn]
  have hP := Parse_short_msec (absDate (t.In UTC).abs).year.toNat (absDate (t.In UTC).abs).month.toNat (absDate (t.In UTC).abs).day.toNat
    (absClock (t.In UTC).abs).1.toNat (absClock (t.In UTC).abs).2.1.toNat (absClock (t.In UTC).abs).2.2.toNat
    (t.nsec.toNat / 1000000) b1 b2 b3 (by omega) b6 b7 b8 f2
  rw [e1, e2, e3, e4, e5, e6, f1] at hP
  have hok := hP.trans hb
  rw [ParseGetUTC_of_first fscale _ ["Mon, 02 Jan 2006 15:04:05 GMT"] (timeFormats.drop 2)
    "20060102T150405-0700" _ ?_ (by decide) ?_ hok]
  · rw [hA]; rfl
  · simp only [← List.append_assoc]
    exact matchDigits_append_nondigit _ 'T' _ (by decide)
  · intro f hf
    simp only [List.mem_singleton] at hf
    subst hf
    exact Parse_rfc_digit 3 _ _

theorem roundtrip_long (fscale : Int → Nat → Int) (t : Time)
    (hy0 : 0 ≤ (absDate (t.In UTC).abs).year) (hy : (absDate (t.In UTC).abs).year ≤ 9999) :
    ParseGetUTC fscale (ISO8601Long t) = Outcome.ret (some ⟨t.sec, 0, UTC⟩, none) := by
  obtain ⟨b1, b2, b3, b4, b5, b6, b7, b8, e1, e2, e3, e4, e5, e6⟩ :=
    civil_bounds (t.In UTC).abs hy0 hy
  obtain ⟨a1, a2, _, _, _, _⟩ := absDate_spec (t.In UTC).abs
  have hw : 0 ≤ absWeekday (t.In UTC).abs ∧ absWeekday (t.In UTC).abs ≤ 6 := by
    simp only [absWeekday, secondsPerDay, secondsPerWeek]
    omega
  have hA : (t.In UTC).abs - 9223372028715321600 = t.sec := by
    rw [abs_UTC _ rfl]
    simp [Time.In]
  have hb := (buildTime_civil (t.In UTC).abs 0 (by norm_num) (by norm_num)).1
  rw [format_long t hy0 hy]
  have hP := Parse_long (absDate (t.In UTC).abs).year.toNat (absDate (t.In UTC).abs).month.toNat (absDate (t.In UTC).abs).day.toNat
    (absClock (t.In UTC).abs).1.toNat (absClock (t.In UTC).abs).2.1.toNat (absClock (t.In UTC).abs).2.2.toNat
    b1 b2 b3 (by omega) b6 b7 b8
  rw [e1, e2, e3, e4, e5, e6] at hP
  have hok := hP.trans hb
  rw [ParseGetUTC_of_first fscale _ ["Mon, 02 Jan 2006 15:04:05 GMT", "20060102T150405-0700", "20060102T150405.000-0700",
      "20060102T150405.000000-0700", "20060102T150405.999999999-0700"] (timeFormats.drop 6)
    "2006-01-02T15:04:05-07:00" _ ?_ (by decide) ?_ hok]
  · rw [hA]; rfl
  · exact matchDigits_append_nondigit _ '-' _ (by decide)
  · intro f hf
    obtain ⟨p1, p2, p3, p4⟩ := Parse_short_dash (absDate (t.In UTC).abs).year.toNat b1
      (_)
    simp only [List.mem_cons, List.mem_singleton, List.not_mem_nil, or_false] at hf
    rcases hf with h | h | h | h | h <;> subst h
    · exact Parse_rfc_digit 3 _ _
    · exact p1
    · exact p2
    · exact p3
    · exact p4

theorem roundtrip_longMsec (fscale : Int → Nat → Int) (t : Time)
    (hy0 : 0 ≤ (absDate (t.In UTC).abs).year) (hy : (absDate (t.In UTC).abs).year ≤ 9999)
    (hn0 : 0 ≤ t.nsec) (hn : t.nsec < 1000000000) :
    ParseGetUTC fscale (ISO8601LongMsec t) = Outcome.ret (some ⟨t.sec, t.nsec / 1000000 * 1000000, UTC⟩, none) := by
  obtain ⟨b1, b2, b3, b4, b5, b6, b7, b8, e1, e2, e3, e4, e5, e6⟩ :=
    civil_bounds (t.In UTC).abs hy0 hy
  obtain ⟨a1, a2, _, _, _, _⟩ := absDate_spec (t.In UTC).abs
  have hw : 0 ≤ absWeekday (t.In UTC).abs ∧ absWeekday (t.In UTC).abs ≤ 6 := by
    simp only [absWeekday, secondsPerDay, secondsPerWeek]
    omega
  have hA : (t.In UTC).abs - 9223372028715321600 = t.sec := by
    rw [abs_UTC _ rfl]
    simp [Time.In]
  obtain ⟨f1, f2, f3, f4⟩ := nsec_msec t.nsec hn0 hn
  have hb := (buildTime_civil (t.In UTC).abs (t.nsec / 1000000 * 1000000) f3 f4).1
  rw [format_longMsec t hy0 hy hn0 hn]
  have hP := Parse_long_msec (absDate (t.In UTC).abs).year.toNat (absDate (t.In UTC).abs).month.toNat (absDate (t.In UTC).abs).day.toNat
    (absClock (t.In UTC).abs).1.toNat (absClock (t.In UTC).abs).2.1.toNat (absClock (t.In UTC).abs).2.2.toNat
    (t.nsec.toNat / 1000000) b1 b2 b3 (by omega) b6 b7 b8 f2
  rw [e1, e2, e3, e4, e5, e6, f1] at hP
  have hok := hP.trans hb
  rw [ParseGetUTC_of_first fscale _ ["Mon, 02 Jan 2006 15:04:05 GMT", "20060102T150405-0700", "20060102T150405.000-0700",
      "20060102T150405.000000-0700", "20060102T150405.999999999-0700"] (timeFormats.drop 6)
    "2006-01-02T15:04:05-07:00" _ ?_ (by decide) ?_ hok]
  · rw [hA]; rfl
  · exact matchDigits_append_nondigit _ '-' _ (by decide)
  · intro f hf
    obtain ⟨p1, p2, p3, p4⟩ := Parse_short_dash (absDate (t.In UTC).abs).year.toNat b1
      (_)
    simp only [List.mem_cons, List.mem_singleton, List.not_mem_nil, or_false] at hf
    rcases hf with h | h | h | h | h <;> subst h
    · exact Parse_rfc_digit 3 _ _
    · exact p1
    · exact p2
    · exact p3
    · exact p4

/-- C5, as stated, fails in its last clause: the text `19680526T073000.567-0500` parses to an
instant with 567 ms, and formatting that instant with `ISO8601Long` and parsing again returns
the instant without the fraction, not the instant of the first parse. -/
theorem reparse_drops_fraction :
    ParseGetUTC (fun _ _ => 0) "19680526T073000.567-0500".toList
        = Outcome.ret (some ⟨-50499000, 567000000, UTC⟩, none) ∧
      ParseGetUTC (fun _ _ => 0) (ISO8601Long ⟨-50499000, 567000000, UTC⟩)
        = Outcome.ret (some ⟨-50499000, 0, UTC⟩, none) ∧
      (⟨-50499000, 0, UTC⟩ : Time) ≠ ⟨-50499000, 567000000, UTC⟩ := by
  set_option maxRecDepth 1000000 in decide

/-- C5, amended: for every instant `t` whose UTC year has at most four digits, the text of each
formatter is accepted by `ParseGetUTC` and parses back to `t` truncated to the precision of the
format: whole seconds for `RFC7232`, `ISO8601Long` and `ISO8601Short`, whole milliseconds for
`ISO8601LongMsec` and `ISO8601ShortMsec`. Hence, when `t` is itself the result of a parse,
parse-then-format-then-parse returns the first parse truncated to that precision. -/
theorem format_parse_roundtrip (fscale : Int → Nat → Int) (t : Time)
    (hy0 : 0 ≤ (t.In UTC).Date.1) (hy : (t.In UTC).Date.1 ≤ 9999)
    (hn0 : 0 ≤ t.nsec) (hn : t.nsec < 1000000000) :
    ParseGetUTC fscale (RFC7232 t) = Outcome.ret (some ⟨t.sec, 0, UTC⟩, none) ∧
      ParseGetUTC fscale (ISO8601Long t) = Outcome.ret (some ⟨t.sec, 0, UTC⟩, none) ∧
      ParseGetUTC fscale (ISO8601Short t) = Outcome.ret (some ⟨t.sec, 0, UTC⟩, none) ∧
      ParseGetUTC fscale (ISO8601LongMsec t)
        = Outcome.ret (some ⟨t.sec, t.nsec / 1000000 * 1000000, UTC⟩, none) ∧
      ParseGetUTC fscale (ISO8601ShortMsec t)
        = Outcome.ret (some ⟨t.sec, t.nsec / 1000000 * 1000000, UTC⟩, none) :=
  ⟨roundtrip_rfc fscale t hy0 hy, roundtrip_long fscale t hy0 hy, roundtrip_short fscale t hy0 hy,
    roundtrip_longMsec fscale t hy0 hy hn0 hn, roundtrip_shortMsec fscale t hy0 hy hn0 hn⟩

theorem format_parse_roundtrip_witness :
    RFC7232 ⟨1611726543, 379050000, UTC⟩ = "Wed, 27 Jan 2021 05:49:03 GMT".toList ∧
      ISO8601LongMsec ⟨1611726543, 379050000, UTC⟩ = "2021-01-27T05:49:03.379+00:00".toList ∧
      ParseGetUTC (fun _ _ => 0) (RFC7232 ⟨1611726543, 379050000, UTC⟩)
        = Outcome.ret (some ⟨1611726543, 0, UTC⟩, none) ∧
      ParseGetUTC (fun _ _ => 0) (ISO8601LongMsec ⟨1611726543, 379050000, UTC⟩)
        = Outcome.ret (some ⟨1611726543, 379000000, UTC⟩, none) := by
  have h := format_parse_roundtrip (fun _ _ => 0) ⟨1611726543, 379050000, UTC⟩ (by decide)
    (by decide) (by decide) (by decide)
  exact ⟨by decide, by decide, h.1, h.2.2.2.1⟩

theorem RangeDate_calls_witness :
    (RangeDate (Unix 1611726543 5) (Unix 1611926543 5)).calls 5
      = [midnightUTC 18654, midnightUTC 18655, midnightUTC 18656, zeroTime, zeroTime] :=
  (RangeDate_calls (Unix 1611726543 5) (Unix 1611926543 5) 5 (by decide) (by decide)
    (by decide) (by decide)).1.trans (by decide)

/-! ## Theorems: further properties of the package -/

/-- Every layout of `timeFormats`, and the layout of `TimesForDateRange`, is covered by the
embedding of `time.Parse`: the loop reaches the end of the layout within its fuel and meets
only embedded layout elements. -/
theorem timeFormats_covered : (timeFormats ++ ["2006-01-02"]).all layoutCovered = true := by
  set_option maxRecDepth 1000000 in decide

/-- When the difference of the second counts fits `int64`, `StartIsBeforeEnd` compares the
second counts. -/
theorem StartIsBeforeEnd_iff (t1 t2 : Time) (h1 : -2 ^ 63 ≤ t2.sec - t1.sec)
    (h2 : t2.sec - t1.sec < 2 ^ 63) : StartIsBeforeEnd t1 t2 = true ↔ t1.sec < t2.sec := by
  simp only [StartIsBeforeEnd, Time.In, Time.Unix, wrap64, decide_eq_true_eq]
  norm_num at h1 h2 ⊢
  omega

theorem StartIsBeforeEnd_iff_witness :
    StartIsBeforeEnd (Unix 1607657940 0) (Unix 1607744340 0) = true ∧
      StartIsBeforeEnd (Unix 1607744340 0) (Unix 1607657940 0) = false ∧
      StartIsBeforeEnd (Unix 1607657940 5) (Unix 1607657940 900) = false := by
  refine ⟨(StartIsBeforeEnd_iff (Unix 1607657940 0) (Unix 1607744340 0) (by decide)
    (by decide)).2 (by decide), by decide, by decide⟩

/-- Whatever the second counts, `StartIsBeforeEnd` never holds in both directions, and it is
false for two instants of the same second. -/
theorem StartIsBeforeEnd_asymm (t1 t2 : Time) :
    (StartIsBeforeEnd t1 t2 = true → StartIsBeforeEnd t2 t1 = false) ∧
      (t1.sec = t2.sec → StartIsBeforeEnd t1 t2 = false) := by
  simp only [StartIsBeforeEnd, Time.In, Time.Unix, wrap64, decide_eq_true_eq,
    decide_eq_false_iff_not]
  norm_num
  constructor
  · omega
  · intro h; rw [h]; norm_num

/-- The function `ParseWithLocation` panics exactly on the all-digit texts of length 11; on
every other text it returns. -/
theorem ParseWithLocation_panic_iff (fscale : Int → Nat → Int) (text : GoString)
    (loc : Location) :
    ParseWithLocation fscale text loc = Outcome.panic
      ↔ (matchDigits text = true ∧ text.length = 11) := by
  unfold ParseWithLocation
  by_cases hd : matchDigits text = true
  · simp only [hd, if_true, true_and]
    by_cases h10 : text.length > 10
    · have hs1 : slice text 0 10 = some (text.take 10) := by
        simp only [slice]
        rw [if_pos (by omega)]
        simp
      simp only [h10, if_true, hs1]
      by_cases h11 : text.length = 11
      · have hs2 : slice text 11 ((text.length : Int) - 1) = none := by
          simp only [slice]
          rw [if_neg (by omega)]
        simp only [hs2]
        simp [h11]
      · have hs2 : ∃ m, slice text 11 ((text.length : Int) - 1) = some m := by
          simp only [slice]
          rw [if_pos (by omega)]
          exact ⟨_, rfl⟩
        obtain ⟨m, hm⟩ := hs2
        simp only [hm, h11, iff_false]
        split <;> simp
    · have : text.length ≠ 11 := by omega
      simp only [h10, if_false, this, iff_false]
      split <;> simp
  · simp only [hd, if_false, false_and, iff_false, Bool.false_eq_true]
    split <;> simp

theorem chunks_yyyymmdd : layoutChunks ("20060102".toList.length + 1) "20060102".toList
    = [([], some .stdLongYear, "0102".toList), ([], some .stdZeroMonth, "02".toList),
       ([], some .stdZeroDay, []), ([], none, [])] := by
  decide

theorem leadingInt_all (s : GoString) : ∀ (x q : Nat), leadingInt s x = some (q, []) →
    s.all isDigit = true := by
  induction s with
  | nil => intro _ _ _; rfl
  | cons c cs ih =>
    intro x q h
    rw [leadingInt] at h
    by_cases hc : isDigit c = true
    · simp only [hc, Bool.not_true, Bool.false_eq_true, if_false] at h
      split_ifs at h
      simp only [List.all_cons, hc, Bool.true_and]
      exact ih _ _ h
    · simp [hc] at h

theorem getnum_fixed_inv (s rest : GoString) (n : Int) (h : getnum s true = some (n, rest)) :
    ∃ c d, s = c :: d :: rest ∧ isDigit c = true ∧ isDigit d = true := by
  cases s with
  | nil => simp [getnum] at h
  | cons c cs =>
    cases cs with
    | nil => simp [getnum, headIsDigit] at h
    | cons d ds =>
      by_cases hc : isDigit c = true
      · by_cases hd : isDigit d = true
        · simp [getnum, headIsDigit, hc, hd] at h
          exact ⟨c, d, by rw [h.2], hc, hd⟩
        · simp [getnum, headIsDigit, hc, hd] at h
      · simp [getnum, hc] at h

theorem longYear_inv (layout value rest : GoString) (f g : Fields)
    (h : parseStd .stdLongYear layout value f = Except.ok (rest, g)) :
    ∃ y, value = y ++ rest ∧ y.all isDigit = true ∧ y ≠ [] := by
  simp only [parseStd] at h
  split_ifs at h with h1
  simp only [Bool.or_eq_true, decide_eq_true_eq, Bool.not_eq_true', not_or, not_lt,
    Bool.not_eq_false] at h1
  cases ha : atoi (value.take 4) with
  | none => rw [ha] at h; simp at h
  | some year =>
    rw [ha] at h
    simp only [Except.ok.injEq, Prod.mk.injEq] at h
    refine ⟨value.take 4, ?_, ?_, ?_⟩
    · rw [← h.1, List.take_append_drop]
    · obtain ⟨c, cs, hv⟩ : ∃ c cs, value = c :: cs := by
        cases value with
        | nil => simp at h1
        | cons c cs => exact ⟨c, cs, rfl⟩
      have hc : isDigit c = true := by
        have := h1.2
        rw [hv] at this
        simpa [headIsDigit] using this
      have h1c : (c == '-') = false := by
        rw [beq_eq_false_iff_ne]; exact isDigit_ne c '-' hc (by decide)
      have h2c : (c == '+') = false := by
        rw [beq_eq_false_iff_ne]; exact isDigit_ne c '+' hc (by decide)
      rw [hv] at ha ⊢
      simp only [List.take_succ_cons, atoi, h1c, h2c, Bool.or_self, Bool.false_eq_true,
        if_false] at ha
      cases hl : leadingInt (c :: List.take 3 cs) 0 with
      | none => rw [hl] at ha; simp at ha
      | some p =>
        obtain ⟨q, rem⟩ := p
        rw [hl] at ha
        simp only at ha
        split_ifs at ha with hr
        have hrem : rem = [] := by
          cases rem with
          | nil => rfl
          | cons a as => simp at hr
        rw [hrem] at hl
        exact leadingInt_all _ _ _ hl
    · intro e
      have h4 : (value.take 4).length = 4 := by
        rw [List.length_take]
        omega
      rw [e] at h4
      simp at h4

/-- Every text that the layout `20060102` parses consists of decimal digits only; since
`ParseWithLocation` sends every such text to the timestamp decoder, this layout of
`timeFormats` is never the one that parses the input. -/
theorem layout_yyyymmdd_dead (text : GoString) (t : Time)
    (h : Parse "20060102".toList text = Except.ok t) : matchDigits text = true := by
  simp only [Parse, parseLoop_eq_parseChunks] at h
  rw [chunks_yyyymmdd] at h
  simp only [parseChunks, skip_nil] at h
  cases h1 : parseStd .stdLongYear "0102".toList text {} with
  | error e => rw [h1] at h; simp at h
  | ok p1 =>
    obtain ⟨v1, f1⟩ := p1
    rw [h1] at h
    simp only at h
    obtain ⟨y, hy, hyd, hyne⟩ := longYear_inv _ _ _ _ _ h1
    cases h2 : parseStd .stdZeroMonth "02".toList v1 f1 with
    | error e => rw [h2] at h; simp at h
    | ok p2 =>
      obtain ⟨v2, f2⟩ := p2
      rw [h2] at h
      simp only at h
      cases h3 : parseStd .stdZeroDay [] v2 f2 with
      | error e => rw [h3] at h; simp at h
      | ok p3 =>
        obtain ⟨v3, f3⟩ := p3
        rw [h3] at h
        simp only at h
        have hv3 : v3 = [] := by
          cases v3 with
          | nil => rfl
          | cons a as => simp at h
        simp only [parseStd] at h2 h3
        cases g2 : getnum v1 true with
        | none => simp [g2] at h2
        | some q2 =>
          obtain ⟨n2, r2⟩ := q2
          obtain ⟨c, d, hv1, hc, hd⟩ := getnum_fixed_inv _ _ _ g2
          have hr2 : r2 = v2 := by
            simp only [g2, beq_self_eq_true] at h2
            split_ifs at h2
            simp only [Except.ok.injEq, Prod.mk.injEq] at h2
            exact h2.1
          cases g3 : getnum v2 true with
          | none => simp [g3] at h3
          | some q3 =>
            obtain ⟨n3, r3⟩ := q3
            obtain ⟨c', d', hv2, hc', hd'⟩ := getnum_fixed_inv _ _ _ g3
            have hr3 : r3 = v3 := by
              simp only [g3, beq_self_eq_true] at h3
              simp only [Except.ok.injEq, Prod.mk.injEq] at h3
              exact h3.1
            rw [hy, hv1, hr2, hv2, hr3, hv3]
            simp [matchDigits, List.all_append, hyd, hc, hd, hc', hd', hyne]

theorem layout_yyyymmdd_dead_witness :
    Parse "20060102".toList "19680526".toList = Except.ok (Date 1968 5 26 0 0 0 0 UTC) ∧
      matchDigits "19680526".toList = true :=
  ⟨by decide, layout_yyyymmdd_dead "19680526".toList (Date 1968 5 26 0 0 0 0 UTC) (by decide)⟩

theorem dateIn_UTC (d : Int) : dateIn d UTC = midnightUTC d := by
  simp only [dateIn, Unix, midnightUTC, Time.In, Time.Add, UTC]
  norm_num

theorem Add_whole_seconds (s k : Int) (loc : Location) :
    (⟨s, 0, loc⟩ : Time).Add (k * 1000000000) = ⟨s + k, 0, loc⟩ := by
  have h1 : (k * 1000000000).tdiv 1000000000 = k := Int.mul_tdiv_cancel _ (by norm_num)
  have h2 : (k * 1000000000).tmod 1000000000 = 0 := Int.mul_tmod_left _ _
  simp only [Time.Add, h1, h2]
  norm_num

/-- For two valid date strings, the first not after the second and the two at most
`2^63 - 1` nanoseconds (about 292 years) apart, `TimesForDateRange` returns 00:00:00 UTC of
the start date and 00:00:00 UTC of the end date; an invalid string gives `nil, nil` and an
error. -/
theorem TimesForDateRange_eq (start endS : GoString) :
    (∀ d1 d2 : Int, dateParse "2006-01-02".toList start = Except.ok d1 →
      dateParse "2006-01-02".toList endS = Except.ok d2 → d1 ≤ d2 →
      (d2 - d1) * 86400 * 1000000000 < 2 ^ 63 →
      TimesForDateRange start endS = (some (midnightUTC d1), some (midnightUTC d2), none)) ∧
    (∀ e, dateParse "2006-01-02".toList start = Except.error e →
      TimesForDateRange start endS
        = (none, none, some (.wrapped "error when parsing start %v" e))) ∧
    (∀ d1 e, dateParse "2006-01-02".toList start = Except.ok d1 →
      dateParse "2006-01-02".toList endS = Except.error e →
      TimesForDateRange start endS
        = (none, none, some (.wrapped "error when parsing end %v" e))) := by
  refine ⟨?_, ?_, ?_⟩
  · intro d1 d2 h1 h2 hle hspan
    have hb : (midnightUTC d2).Before (midnightUTC d1) = false := by
      simp only [Time.Before, midnightUTC]
      simp
      omega
    have hw : wrap64 (wrap64 ((d2 * 86400 - d1 * 86400) * 1000000000) + (0 - 0))
        = (d2 * 86400 - d1 * 86400) * 1000000000 := by
      simp only [wrap64]
      norm_num at hspan ⊢
      omega
    have hadd : (midnightUTC d1).Add ((d2 * 86400 - d1 * 86400) * 1000000000)
        = midnightUTC d2 := by
      simp only [midnightUTC, Add_whole_seconds]
      congr 1
      ring
    have hsub : (midnightUTC d2).Sub (midnightUTC d1)
        = (d2 * 86400 - d1 * 86400) * 1000000000 := by
      simp only [Time.Sub]
      rw [show (midnightUTC d2).sec = d2 * 86400 from rfl,
        show (midnightUTC d1).sec = d1 * 86400 from rfl,
        show (midnightUTC d2).nsec = 0 from rfl, show (midnightUTC d1).nsec = 0 from rfl, hw,
        hadd]
      simp [Time.Equal]
    simp only [TimesForDateRange, h1, h2, dateIn_UTC, NewTimeSpan, hb, Bool.false_eq_true,
      if_false, TimeSpan.Start, TimeSpan.End, hsub, hadd]
  · intro e h
    simp only [TimesForDateRange, h]
  · intro d1 e h1 h2
    simp only [TimesForDateRange, h1, h2]

theorem TimesForDateRange_eq_witness :
    TimesForDateRange "2021-01-01".toList "2021-01-02".toList
        = (some (midnightUTC 18628), some (midnightUTC 18629), none) ∧
      (∃ e, TimesForDateRange "2021-01-01".toList "2021-1-02".toList = (none, none, some e)) := by
  have h := TimesForDateRange_eq "2021-01-01".toList "2021-01-02".toList
  have h2 := TimesForDateRange_eq "2021-01-01".toList "2021-1-02".toList
  exact ⟨h.1 18628 18629 (by decide) (by decide) (by decide) (by decide),
    ⟨_, h2.2.2 18628 ParseError.bad (by decide) (by decide)⟩⟩

end Dateutils
